import Mathlib

/-!
# SupplyWise stock-ledger and alerting engine: a shallow embedding

This file embeds the core of the SupplyWise inventory application
(the stock ledger in `src/database/queries/transactions.js`, the product
registry in `src/database/index.js`, the batch tracker in
`src/database/batchTracking.js`, and the notification engine in
`src/database/queries/notifications.js`) as executable Lean definitions,
and proves or refutes the specification's claims about it.

Modelling conventions:
* Quantities and stock levels are rationals (the spec's numeric semantics
  declares quantities "arbitrary-precision-safe decimal values").
* Timestamps are rationals: notification times are measured in hours,
  dates in the batch tracker are represented by their `julianday` value
  (fractional days), matching the SQLite expressions in the source.
  Sorting by the ISO `batch_expiry_date` string in SQL coincides with
  sorting by its julianday value.
* The SQLite database is a `DBState` record of row lists; `executeSql`
  writes become pure state transformations.  A JavaScript `throw` is an
  `Except.error`; each operation returns the database state as it stands
  at the point of the throw, mirroring exactly which `executeSql` calls
  ran before the `throw` statement in the source.
-/

namespace SupplyWise

/-- The three movement kinds of the `type` column of `stock_transactions`. -/
inductive MovType where
  | IN
  | OUT
  | ADJUST
deriving DecidableEq, Repr

/-- A row of the `products` table; only the columns the core logic reads.
`current_stock` is the denormalized cached balance. -/
structure Product where
  id : Nat
  name : String
  current_stock : Rat
  unit : String
  min_stock_threshold : Rat
  is_active : Bool
deriving DecidableEq, Repr

/-- A row of the `stock_transactions` table (the ledger).
`batch_expiry_date` stores the julianday value of the date string. -/
structure Movement where
  id : Nat
  product_id : Nat
  type : MovType
  quantity : Rat
  unit : String
  notes : String
  reference_no : Option String
  balance_after : Rat
  batch_number : Option String
  batch_expiry_date : Option Rat
deriving DecidableEq, Repr

/-- Notification types, from `NotificationTypes` in notifications.js. -/
inductive NotifType where
  | LOW_STOCK
  | EXPIRING_SOON
  | STOCK_IN
  | STOCK_OUT
  | PRODUCT_ADDED
  | PRODUCT_EDITED
deriving DecidableEq, Repr

/-- Notification priorities, from `NotificationPriority` in notifications.js. -/
inductive NotifPriority where
  | HIGH
  | MEDIUM
  | LOW
deriving DecidableEq, Repr

/-- A row of the `notifications` table; `created_at` is in hours. -/
structure Notification where
  type : NotifType
  priority : NotifPriority
  product_id : Option Nat
  product_name : String
  quantity : Rat
  created_at : Rat
  is_read : Bool
deriving DecidableEq, Repr

/-- The database: the row lists of the tables the core touches, plus the
AUTOINCREMENT counter for `stock_transactions.id`.  `movements` is kept in
insertion order (an `INSERT` appends at the end). -/
structure DBState where
  products : List Product
  movements : List Movement
  nextMovementId : Nat
  notifications : List Notification
deriving DecidableEq, Repr

/-- Errors thrown by the query layer.  Each constructor corresponds to one
`throw new Error(...)` site in the source (the Indonesian message strings are
elided); `PersistenceFailure` stands for a fault of the SQLite layer itself. -/
inductive DBError where
  | ProductNotFound
  | TransactionNotFound
  | InsufficientStock
  | IrreversibleMovement
  | PersistenceFailure
deriving DecidableEq, Repr

/-- `getProductById` (index.js): `SELECT ... FROM products WHERE id = ?`,
returning the first matching row or null. -/
def getProductById (st : DBState) (id : Nat) : Option Product :=
  st.products.find? (fun p => p.id = id)

/-- `updateProductStock` (index.js:504):
`UPDATE products SET current_stock = ? WHERE id = ?`. -/
def updateProductStock (st : DBState) (productId : Nat) (newStock : Rat) :
    DBState :=
  { st with
    products := st.products.map (fun p =>
      if p.id = productId then { p with current_stock := newStock } else p) }

/-- The balance arithmetic of `createStockTransaction` (transactions.js:38-52):
IN adds, OUT subtracts, ADJUST sets directly. -/
def computeNewStock (current : Rat) (type : MovType) (quantity : Rat) : Rat :=
  match type with
  | .IN => current + quantity
  | .OUT => current - quantity
  | .ADJUST => quantity

/-- Result object returned by `createStockTransaction` on success. -/
structure TxResult where
  id : Nat
  productId : Nat
  type : MovType
  quantity : Rat
  unit : String
  oldStock : Rat
  newStock : Rat
deriving DecidableEq, Repr

/-- First phase of `createStockTransaction` (transactions.js:29-73): look the
product up, compute the new balance, reject an OUT that would go negative,
and insert the ledger row.  Returns the state after the insert together with
the new movement id and balances.  There is no validation of `quantity`
anywhere on this path. -/
def insertMovementPhase (st : DBState) (productId : Nat) (type : MovType)
    (quantity : Rat) (notes : String) (referenceNo : Option String)
    (batchNumber : Option String) (batchExpiryDate : Option Rat) :
    Except DBError (DBState × TxResult) :=
  match getProductById st productId with
  | none => .error .ProductNotFound
  | some product =>
    let newStock := computeNewStock product.current_stock type quantity
    if type = .OUT ∧ newStock < 0 then
      .error .InsufficientStock
    else
      let mov : Movement :=
        { id := st.nextMovementId
          product_id := productId
          type := type
          quantity := quantity
          unit := product.unit
          notes := notes
          reference_no := referenceNo
          balance_after := newStock
          batch_number := batchNumber
          batch_expiry_date := batchExpiryDate }
      let st1 : DBState :=
        { st with
          movements := st.movements ++ [mov]
          nextMovementId := st.nextMovementId + 1 }
      .ok (st1,
        { id := mov.id
          productId := productId
          type := type
          quantity := quantity
          unit := product.unit
          oldStock := product.current_stock
          newStock := newStock })

/-- `createStockTransaction` (transactions.js:20-100): insert the ledger row,
then update the cached product stock.  The pair returned is the database
state as left by the call together with the thrown error or the result
object; on the error paths no `executeSql` write has run, so the input state
is returned unchanged. -/
def createStockTransaction (st : DBState) (productId : Nat) (type : MovType)
    (quantity : Rat) (notes : String) (referenceNo : Option String)
    (batchNumber : Option String) (batchExpiryDate : Option Rat) :
    DBState × Except DBError TxResult :=
  match insertMovementPhase st productId type quantity notes referenceNo
      batchNumber batchExpiryDate with
  | .error e => (st, .error e)
  | .ok (st1, res) =>
    (updateProductStock st1 productId res.newStock, .ok res)

/-- Fault-injected run of `createStockTransaction`: the ledger insert
succeeds but the subsequent `updateProductStock` statement fails (for
example an I/O error of the store).  The source wraps the two statements in
no transaction — they are two independently awaited `executeSql` calls — so
the inserted row survives and the error propagates to the caller. -/
def createStockTransactionFaulted (st : DBState) (productId : Nat)
    (type : MovType) (quantity : Rat) (notes : String)
    (referenceNo : Option String) (batchNumber : Option String)
    (batchExpiryDate : Option Rat) : DBState × Except DBError TxResult :=
  match insertMovementPhase st productId type quantity notes referenceNo
      batchNumber batchExpiryDate with
  | .error e => (st, .error e)
  | .ok (st1, _) => (st1, .error .PersistenceFailure)

/-- `getTransactionById` (transactions.js:199):
`SELECT ... FROM stock_transactions WHERE id = ?`. -/
def getTransactionById (st : DBState) (id : Nat) : Option Movement :=
  st.movements.find? (fun m => m.id = id)

/-- The reverted-balance arithmetic of `deleteTransaction`
(transactions.js:330-336): undo the movement as if it had never occurred —
IN subtracts its quantity back out, OUT adds it back, and any other type
(ADJUST) leaves the current balance untouched. -/
def revertedStockOf (product : Product) (transaction : Movement) : Rat :=
  match transaction.type with
  | .IN => product.current_stock - transaction.quantity
  | .OUT => product.current_stock + transaction.quantity
  | .ADJUST => product.current_stock

/-- `deleteTransaction` (transactions.js:314-356): look up the movement and
its product, undo the movement's arithmetic, refuse if the reverted balance
would be negative, then delete the row and write the reverted balance into
the product cache. -/
def deleteTransaction (st : DBState) (id : Nat) :
    DBState × Except DBError Bool :=
  match getTransactionById st id with
  | none => (st, .error .TransactionNotFound)
  | some transaction =>
    match getProductById st transaction.product_id with
    | none => (st, .error .ProductNotFound)
    | some product =>
      let revertedStock := revertedStockOf product transaction
      if revertedStock < 0 then
        (st, .error .IrreversibleMovement)
      else
        let st1 : DBState :=
          { st with movements := st.movements.filter (fun m => ¬ m.id = id) }
        (updateProductStock st1 transaction.product_id revertedStock, .ok true)

/-- The signed running total of the surviving ledger rows of one product, in
insertion order: IN adds its quantity, OUT subtracts it, ADJUST sets the
absolute value.  This is the quantity the specification's balance invariant
compares `current_stock` against. -/
def applyMov (balance : Rat) (m : Movement) : Rat :=
  match m.type with
  | .IN => balance + m.quantity
  | .OUT => balance - m.quantity
  | .ADJUST => m.quantity

/-- Signed sum of the rows of one product within a movement list. -/
def ledgerSum (l : List Movement) (productId : Nat) : Rat :=
  List.foldl applyMov 0 (l.filter (fun m => m.product_id = productId))

/-- Ledger-derived balance of a product: fold of its surviving movements. -/
def ledgerBalance (st : DBState) (productId : Nat) : Rat :=
  ledgerSum st.movements productId

/-- The cache-consistency invariant: every product row's `current_stock`
equals the signed sum of its surviving ledger movements. -/
def balanceInv (st : DBState) : Prop :=
  ∀ p ∈ st.products, p.current_stock = ledgerBalance st p.id

instance : DecidablePred balanceInv := fun st =>
  inferInstanceAs (Decidable (∀ p ∈ st.products, p.current_stock = ledgerBalance st p.id))

/-- The cached stock of a product, when the product exists. -/
def stockOf (st : DBState) (productId : Nat) : Option Rat :=
  (getProductById st productId).map (fun p => p.current_stock)

/-- One `recordMovement` request: the arguments of one
`createStockTransaction` call. -/
structure MovReq where
  productId : Nat
  type : MovType
  quantity : Rat
  notes : String
  referenceNo : Option String
  batchNumber : Option String
  batchExpiryDate : Option Rat
deriving DecidableEq, Repr

/-- Issue one request; a thrown error leaves the caller with the state as
returned at the throw point. -/
def applyMovReq (st : DBState) (r : MovReq) : DBState :=
  (createStockTransaction st r.productId r.type r.quantity r.notes
    r.referenceNo r.batchNumber r.batchExpiryDate).1

/-- Issue a sequence of `recordMovement` requests serially. -/
def runMovements (st : DBState) (reqs : List MovReq) : DBState :=
  reqs.foldl applyMovReq st

lemma getProductById_mem {st : DBState} {id : Nat} {p : Product}
    (h : getProductById st id = some p) : p ∈ st.products :=
  List.mem_of_find?_eq_some h

lemma getProductById_id {st : DBState} {id : Nat} {p : Product}
    (h : getProductById st id = some p) : p.id = id := by
  have := List.find?_some h
  simpa using this

lemma ledgerSum_append_one (l : List Movement) (mov : Movement) (pid : Nat) :
    ledgerSum (l ++ [mov]) pid =
      if mov.product_id = pid then applyMov (ledgerSum l pid) mov
      else ledgerSum l pid := by
  unfold ledgerSum
  simp only [List.filter_append, List.foldl_append]
  by_cases h : mov.product_id = pid <;> simp [h, List.filter]

/-- `applyMov` on a row whose `type` and `quantity` are known is exactly the
balance arithmetic of `createStockTransaction`. -/
lemma applyMov_mk (b : Rat) (type : MovType) (quantity : Rat)
    (m : Movement) (hty : m.type = type) (hq : m.quantity = quantity) :
    applyMov b m = computeNewStock b type quantity := by
  unfold applyMov computeNewStock
  rw [hty, hq]

/-- Appending a ledger row for a product and writing the correspondingly
updated balance into that product's cache preserves cache consistency. -/
lemma balanceInv_insert_update (st : DBState) (mov : Movement) (n : Nat)
    (v : Rat) (hv : v = applyMov (ledgerSum st.movements mov.product_id) mov)
    (hinv : balanceInv st) :
    balanceInv (updateProductStock
      { st with movements := st.movements ++ [mov], nextMovementId := n }
      mov.product_id v) := by
  intro p' hp'
  have hmem : p' ∈ st.products.map (fun p =>
      if p.id = mov.product_id then { p with current_stock := v } else p) := hp'
  obtain ⟨p, hp, hpe⟩ := List.mem_map.1 hmem
  have hbal : ∀ q : Nat, ledgerBalance (updateProductStock
      { st with movements := st.movements ++ [mov], nextMovementId := n }
      mov.product_id v) q = ledgerSum (st.movements ++ [mov]) q :=
    fun _ => rfl
  rw [hbal]
  by_cases hid : p.id = mov.product_id
  · rw [if_pos hid] at hpe
    rw [← hpe]
    rw [show ({ p with current_stock := v } : Product).current_stock = v
      from rfl]
    rw [show ({ p with current_stock := v } : Product).id = p.id from rfl]
    rw [ledgerSum_append_one, if_pos hid.symm, hid]
    exact hv
  · rw [if_neg hid] at hpe
    rw [← hpe]
    rw [ledgerSum_append_one, if_neg (fun h => hid h.symm)]
    exact hinv p hp

/-- What a successful `insertMovementPhase` tells about its output. -/
lemma insertMovementPhase_ok_spec (st : DBState) (productId : Nat)
    (type : MovType) (quantity : Rat) (notes : String)
    (referenceNo : Option String) (batchNumber : Option String)
    (batchExpiryDate : Option Rat) (st1 : DBState) (res : TxResult)
    (h : insertMovementPhase st productId type quantity notes referenceNo
      batchNumber batchExpiryDate = .ok (st1, res)) :
    ∃ product, getProductById st productId = some product ∧
      ¬ (type = MovType.OUT ∧
          computeNewStock product.current_stock type quantity < 0) ∧
      res.newStock = computeNewStock product.current_stock type quantity ∧
      res.id = st.nextMovementId ∧
      st1 = { st with
        movements := st.movements ++
          [{ id := st.nextMovementId, product_id := productId, type := type,
             quantity := quantity, unit := product.unit, notes := notes,
             reference_no := referenceNo,
             balance_after := computeNewStock product.current_stock type quantity,
             batch_number := batchNumber,
             batch_expiry_date := batchExpiryDate }],
        nextMovementId := st.nextMovementId + 1 } := by
  unfold insertMovementPhase at h
  split at h
  · exact absurd h (by simp)
  next product hfind =>
    dsimp only [] at h
    split at h
    · exact absurd h (by simp)
    next hout =>
      refine ⟨product, hfind, hout, ?_, ?_, ?_⟩
      · cases h
        rfl
      · cases h
        rfl
      · cases h
        rfl

/-- Cache-consistency is preserved by every `createStockTransaction` call,
whatever its arguments and whether it succeeds or throws. -/
lemma balanceInv_createStockTransaction (st : DBState) (productId : Nat)
    (type : MovType) (quantity : Rat) (notes : String)
    (referenceNo : Option String) (batchNumber : Option String)
    (batchExpiryDate : Option Rat) (hinv : balanceInv st) :
    balanceInv (createStockTransaction st productId type quantity notes
      referenceNo batchNumber batchExpiryDate).1 := by
  unfold createStockTransaction
  cases h : insertMovementPhase st productId type quantity notes referenceNo
      batchNumber batchExpiryDate with
  | error e => exact hinv
  | ok pr =>
    obtain ⟨st1, res⟩ := pr
    obtain ⟨product, hfind, hout, hres, hid, hst1⟩ :=
      insertMovementPhase_ok_spec st productId type quantity notes referenceNo
        batchNumber batchExpiryDate st1 res h
    show balanceInv (updateProductStock st1 productId res.newStock)
    subst hst1
    rw [hres]
    have hprod : product.current_stock = ledgerSum st.movements productId := by
      have := hinv product (getProductById_mem hfind)
      rwa [getProductById_id hfind] at this
    refine balanceInv_insert_update st _ _ _ ?_ hinv
    rw [applyMov_mk (ledgerSum st.movements productId) type quantity _ rfl rfl]
    rw [← hprod]

/-- The ledger row inserted by a successful `createStockTransaction`. -/
def mkMovement (st : DBState) (productId : Nat) (type : MovType)
    (quantity : Rat) (notes : String) (referenceNo : Option String)
    (batchNumber : Option String) (batchExpiryDate : Option Rat)
    (product : Product) : Movement :=
  { id := st.nextMovementId
    product_id := productId
    type := type
    quantity := quantity
    unit := product.unit
    notes := notes
    reference_no := referenceNo
    balance_after := computeNewStock product.current_stock type quantity
    batch_number := batchNumber
    batch_expiry_date := batchExpiryDate }

lemma insertMovementPhase_eq_ok (st : DBState) (productId : Nat)
    (type : MovType) (quantity : Rat) (notes : String)
    (referenceNo : Option String) (batchNumber : Option String)
    (batchExpiryDate : Option Rat) (p : Product)
    (hp : getProductById st productId = some p)
    (hok : ¬ (type = MovType.OUT ∧
      computeNewStock p.current_stock type quantity < 0)) :
    insertMovementPhase st productId type quantity notes referenceNo
        batchNumber batchExpiryDate =
      .ok ({ st with
          movements := st.movements ++ [mkMovement st productId type quantity
            notes referenceNo batchNumber batchExpiryDate p],
          nextMovementId := st.nextMovementId + 1 },
        { id := st.nextMovementId, productId := productId, type := type,
          quantity := quantity, unit := p.unit, oldStock := p.current_stock,
          newStock := computeNewStock p.current_stock type quantity }) := by
  simp only [insertMovementPhase, hp]
  rw [if_neg hok]
  rfl

/-- A successful `createStockTransaction` appends the ledger row and then
caches the new balance. -/
lemma createStockTransaction_eq_ok (st : DBState) (productId : Nat)
    (type : MovType) (quantity : Rat) (notes : String)
    (referenceNo : Option String) (batchNumber : Option String)
    (batchExpiryDate : Option Rat) (p : Product)
    (hp : getProductById st productId = some p)
    (hok : ¬ (type = MovType.OUT ∧
      computeNewStock p.current_stock type quantity < 0)) :
    createStockTransaction st productId type quantity notes referenceNo
        batchNumber batchExpiryDate =
      (updateProductStock
        { st with
          movements := st.movements ++ [mkMovement st productId type quantity
            notes referenceNo batchNumber batchExpiryDate p],
          nextMovementId := st.nextMovementId + 1 }
        productId (computeNewStock p.current_stock type quantity),
       .ok ({ id := st.nextMovementId, productId := productId, type := type,
              quantity := quantity, unit := p.unit, oldStock := p.current_stock,
              newStock := computeNewStock p.current_stock type quantity })) := by
  unfold createStockTransaction
  rw [insertMovementPhase_eq_ok st productId type quantity notes referenceNo
    batchNumber batchExpiryDate p hp hok]

/-- An OUT that would drive the balance negative throws before any write. -/
lemma createStockTransaction_out_insufficient (st : DBState)
    (productId : Nat) (quantity : Rat) (notes : String)
    (referenceNo : Option String) (batchNumber : Option String)
    (batchExpiryDate : Option Rat) (p : Product)
    (hp : getProductById st productId = some p)
    (hneg : p.current_stock - quantity < 0) :
    createStockTransaction st productId MovType.OUT quantity notes referenceNo
        batchNumber batchExpiryDate = (st, .error .InsufficientStock) := by
  unfold createStockTransaction
  simp only [insertMovementPhase, hp]
  rw [if_pos ⟨trivial, hneg⟩]

lemma find?_map_update (l : List Product) (productId : Nat) (v : Rat) :
    (l.map (fun p =>
        if p.id = productId then { p with current_stock := v } else p)).find?
        (fun p => p.id = productId)
      = (l.find? (fun p => p.id = productId)).map
          (fun p => { p with current_stock := v }) := by
  induction l with
  | nil => rfl
  | cons a l ih =>
    by_cases h : a.id = productId
    · simp [List.find?, h]
    · simp [List.find?, h, ih]

/-- Looking a product up after `updateProductStock` on its id returns the
row with the new balance. -/
lemma getProductById_updateProductStock (st : DBState) (productId : Nat)
    (v : Rat) (p : Product) (hp : getProductById st productId = some p) :
    getProductById (updateProductStock st productId v) productId =
      some { p with current_stock := v } := by
  unfold getProductById updateProductStock at *
  rw [find?_map_update, hp]
  rfl

/-- A one-product database with an empty ledger, used as a concrete sample. -/
def demoProduct : Product :=
  { id := 1, name := "Beras", current_stock := 0, unit := "pcs",
    min_stock_threshold := 10, is_active := true }

/-- Sample database state: one product, no movements, no notifications. -/
def demoState : DBState :=
  { products := [demoProduct], movements := [], nextMovementId := 1,
    notifications := [] }

/-- Sample request sequence exercising all three movement types. -/
def demoReqs : List MovReq :=
  [{ productId := 1, type := .IN, quantity := 50, notes := "", referenceNo := none,
     batchNumber := none, batchExpiryDate := none },
   { productId := 1, type := .OUT, quantity := 20, notes := "", referenceNo := none,
     batchNumber := none, batchExpiryDate := none },
   { productId := 1, type := .ADJUST, quantity := 5, notes := "", referenceNo := none,
     batchNumber := none, batchExpiryDate := none }]

/-- **C1** (Balance invariant).  For every sequence of `recordMovement`
(`createStockTransaction`) calls on a state whose product caches agree with
the ledger, the caches agree with the ledger again after each call: every
product's `current_stock` equals the signed sum of the surviving ledger
movements of that product, where IN adds its quantity, OUT subtracts it and
ADJUST sets the absolute value.  (The statement quantifies over arbitrary
request lists, so in particular it holds after every prefix of a sequence,
i.e. after each call.) -/
theorem c1_balance_invariant (st : DBState) (reqs : List MovReq)
    (hinv : balanceInv st) : balanceInv (runMovements st reqs) := by
  induction reqs generalizing st with
  | nil => exact hinv
  | cons r rest ih =>
    exact ih (applyMovReq st r)
      (balanceInv_createStockTransaction st r.productId r.type r.quantity
        r.notes r.referenceNo r.batchNumber r.batchExpiryDate hinv)

/-- Witness for C1: the sample state is consistent and stays consistent
after running the sample IN/OUT/ADJUST sequence. -/
theorem c1_balance_invariant_witness :
    balanceInv demoState ∧ balanceInv (runMovements demoState demoReqs) :=
  ⟨by simp [balanceInv, demoState, demoProduct, ledgerBalance, ledgerSum],
   c1_balance_invariant demoState demoReqs
     (by simp [balanceInv, demoState, demoProduct, ledgerBalance, ledgerSum])⟩

/-- A product holding 50 units, as in the spec's concrete scenario. -/
def stockedProduct : Product :=
  { id := 1, name := "Beras", current_stock := 50, unit := "pcs",
    min_stock_threshold := 10, is_active := true }

/-- One product with 50 units in stock and an empty notification table. -/
def stockedState : DBState :=
  { products := [stockedProduct], movements := [], nextMovementId := 1,
    notifications := [] }

/-- **C4** (InsufficientStock on OUT).  Whenever an OUT movement's quantity
exceeds the product's `current_stock` (`current_stock - quantity < 0`), the
call returns the InsufficientStock error and the whole database state is
returned unchanged — no ledger row written, no balance mutated; and an OUT
that brings the balance exactly to zero succeeds, leaving the product's
cached stock at 0. -/
theorem c4_insufficient_stock_on_out
    (st : DBState) (productId : Nat) (quantity : Rat) (p : Product)
    (notes : String) (referenceNo batchNumber : Option String)
    (batchExpiryDate : Option Rat)
    (hp : getProductById st productId = some p)
    (hneg : p.current_stock - quantity < 0)
    (st2 : DBState) (productId2 : Nat) (quantity2 : Rat) (p2 : Product)
    (hp2 : getProductById st2 productId2 = some p2)
    (hzero : p2.current_stock - quantity2 = 0) :
    createStockTransaction st productId .OUT quantity notes referenceNo
        batchNumber batchExpiryDate = (st, .error .InsufficientStock) ∧
    (createStockTransaction st2 productId2 .OUT quantity2 notes referenceNo
        batchNumber batchExpiryDate).2 =
      .ok { id := st2.nextMovementId, productId := productId2, type := .OUT,
            quantity := quantity2, unit := p2.unit,
            oldStock := p2.current_stock,
            newStock := p2.current_stock - quantity2 } ∧
    stockOf (createStockTransaction st2 productId2 .OUT quantity2 notes
        referenceNo batchNumber batchExpiryDate).1 productId2 = some 0 := by
  have hok : ¬ (MovType.OUT = MovType.OUT ∧
      computeNewStock p2.current_stock MovType.OUT quantity2 < 0) := by
    intro h
    have h2 := h.2
    rw [show computeNewStock p2.current_stock MovType.OUT quantity2 =
      p2.current_stock - quantity2 from rfl, hzero] at h2
    exact absurd h2 (lt_irrefl 0)
  have heq := createStockTransaction_eq_ok st2 productId2 MovType.OUT
    quantity2 notes referenceNo batchNumber batchExpiryDate p2 hp2 hok
  refine ⟨createStockTransaction_out_insufficient st productId quantity notes
    referenceNo batchNumber batchExpiryDate p hp hneg, ?_, ?_⟩
  · rw [heq]
    rfl
  · rw [heq]
    have hp2' : getProductById
        ({ st2 with
          movements := st2.movements ++ [mkMovement st2 productId2 MovType.OUT
            quantity2 notes referenceNo batchNumber batchExpiryDate p2],
          nextMovementId := st2.nextMovementId + 1 } : DBState) productId2 =
        some p2 := hp2
    rw [show stockOf (updateProductStock _ productId2
        (computeNewStock p2.current_stock MovType.OUT quantity2)) productId2 =
      (getProductById (updateProductStock _ productId2
        (computeNewStock p2.current_stock MovType.OUT quantity2)) productId2).map
        (fun q => q.current_stock) from rfl]
    rw [getProductById_updateProductStock _ productId2 _ p2 hp2']
    rw [show computeNewStock p2.current_stock MovType.OUT quantity2 =
      p2.current_stock - quantity2 from rfl, hzero]
    rfl

/-- Witness for C4: with 50 in stock, OUT 60 is rejected with the state
untouched, and OUT 50 succeeds leaving exactly 0. -/
theorem c4_insufficient_stock_on_out_witness :
    getProductById stockedState 1 = some stockedProduct ∧
    stockedProduct.current_stock - 60 < 0 ∧
    stockedProduct.current_stock - 50 = 0 ∧
    (createStockTransaction stockedState 1 .OUT 60 "" none none none =
        (stockedState, .error .InsufficientStock) ∧
      (createStockTransaction stockedState 1 .OUT 50 "" none none none).2 =
        .ok { id := 1, productId := 1, type := .OUT, quantity := 50,
              unit := "pcs", oldStock := 50, newStock := 50 - 50 } ∧
      stockOf (createStockTransaction stockedState 1 .OUT 50 "" none
          none none).1 1 = some 0) :=
  ⟨rfl, by norm_num [stockedProduct], by norm_num [stockedProduct],
   c4_insufficient_stock_on_out stockedState 1 60 stockedProduct "" none none
     none rfl (by norm_num [stockedProduct]) stockedState 1 50 stockedProduct
     rfl (by norm_num [stockedProduct])⟩

/-- An operation of the ledger API: one `createStockTransaction` call or one
`deleteTransaction` call. -/
inductive Op where
  | record (r : MovReq)
  | remove (id : Nat)
deriving DecidableEq, Repr

/-- Apply one operation; a thrown error leaves the state as returned at the
throw point. -/
def applyOp (st : DBState) (op : Op) : DBState :=
  match op with
  | .record r => applyMovReq st r
  | .remove id => (deleteTransaction st id).1

/-- The error thrown by one operation, when it throws. -/
def opError (st : DBState) (op : Op) : Option DBError :=
  match op with
  | .record r =>
    match (createStockTransaction st r.productId r.type r.quantity r.notes
        r.referenceNo r.batchNumber r.batchExpiryDate).2 with
    | .error e => some e
    | .ok _ => none
  | .remove id =>
    match (deleteTransaction st id).2 with
    | .error e => some e
    | .ok _ => none

/-- Apply a sequence of operations serially. -/
def runOps (st : DBState) (ops : List Op) : DBState :=
  ops.foldl applyOp st

/-- The spec's preconditions on a movement request: a positive quantity for
IN and OUT, a non-negative absolute target for ADJUST. -/
def validMovReq (r : MovReq) : Prop :=
  match r.type with
  | .IN => 0 < r.quantity
  | .OUT => 0 < r.quantity
  | .ADJUST => 0 ≤ r.quantity

/-- Validity of one operation (`deleteTransaction` takes no quantity). -/
def validOp (op : Op) : Prop :=
  match op with
  | .record r => validMovReq r
  | .remove _ => True

/-- Non-negativity of every cached product stock. -/
def nonNegStock (st : DBState) : Prop :=
  ∀ p ∈ st.products, 0 ≤ p.current_stock

lemma nonNegStock_updateProductStock (st : DBState) (productId : Nat)
    (v : Rat) (hst : nonNegStock st) (hv : 0 ≤ v) :
    nonNegStock (updateProductStock st productId v) := by
  intro p' hp'
  obtain ⟨p, hp, hpe⟩ := List.mem_map.1 hp'
  by_cases h : p.id = productId
  · rw [if_pos h] at hpe
    rw [← hpe]
    exact hv
  · rw [if_neg h] at hpe
    rw [← hpe]
    exact hst p hp

lemma nonNegStock_movements_irrel (st : DBState) (l : List Movement)
    (n : Nat) (hst : nonNegStock st) :
    nonNegStock { st with movements := l, nextMovementId := n } := hst

/-- A valid `createStockTransaction` call keeps every cached stock
non-negative. -/
lemma nonNegStock_createStockTransaction (st : DBState) (r : MovReq)
    (hst : nonNegStock st) (hr : validMovReq r) :
    nonNegStock (applyMovReq st r) := by
  unfold applyMovReq
  cases h : insertMovementPhase st r.productId r.type r.quantity r.notes
      r.referenceNo r.batchNumber r.batchExpiryDate with
  | error e =>
    show nonNegStock (createStockTransaction st r.productId r.type r.quantity
      r.notes r.referenceNo r.batchNumber r.batchExpiryDate).1
    unfold createStockTransaction
    rw [h]
    exact hst
  | ok pr =>
    obtain ⟨st1, res⟩ := pr
    obtain ⟨product, hfind, hout, hres, _, hst1⟩ :=
      insertMovementPhase_ok_spec st r.productId r.type r.quantity r.notes
        r.referenceNo r.batchNumber r.batchExpiryDate st1 res h
    show nonNegStock (createStockTransaction st r.productId r.type r.quantity
      r.notes r.referenceNo r.batchNumber r.batchExpiryDate).1
    unfold createStockTransaction
    rw [h]
    show nonNegStock (updateProductStock st1 r.productId res.newStock)
    have hcur : 0 ≤ product.current_stock :=
      hst product (getProductById_mem hfind)
    have hnew : 0 ≤ res.newStock := by
      rw [hres]
      unfold validMovReq at hr
      cases hty : r.type with
      | IN =>
        rw [hty] at hr
        show 0 ≤ product.current_stock + r.quantity
        exact add_nonneg hcur (le_of_lt hr)
      | OUT =>
        rw [hty] at hout
        show 0 ≤ product.current_stock - r.quantity
        by_contra hneg
        exact hout ⟨rfl, lt_of_not_le hneg⟩
      | ADJUST =>
        rw [hty] at hr
        exact hr
    rw [hst1]
    exact nonNegStock_updateProductStock _ _ _ hst hnew

/-- `deleteTransaction` keeps every cached stock non-negative: the reverted
balance is written only after the `revertedStock < 0` guard passes. -/
lemma nonNegStock_deleteTransaction (st : DBState) (id : Nat)
    (hst : nonNegStock st) : nonNegStock (deleteTransaction st id).1 := by
  unfold deleteTransaction
  split
  · exact hst
  next transaction hfind =>
    split
    · exact hst
    next product hprod =>
      dsimp only []
      split
      · exact hst
      next hguard =>
        exact nonNegStock_updateProductStock _ _ _ hst (le_of_not_lt hguard)

/-- On a thrown error, `createStockTransaction` has run no write: the state
component it returns is its input. -/
lemma createStockTransaction_error_frame (st : DBState) (productId : Nat)
    (type : MovType) (quantity : Rat) (notes : String)
    (referenceNo batchNumber : Option String) (batchExpiryDate : Option Rat)
    (e : DBError)
    (herr : (createStockTransaction st productId type quantity notes
      referenceNo batchNumber batchExpiryDate).2 = .error e) :
    (createStockTransaction st productId type quantity notes referenceNo
      batchNumber batchExpiryDate).1 = st := by
  unfold createStockTransaction at herr ⊢
  cases h : insertMovementPhase st productId type quantity notes referenceNo
      batchNumber batchExpiryDate with
  | error e2 => rfl
  | ok pr =>
    obtain ⟨st1, res⟩ := pr
    rw [h] at herr
    exact absurd herr (by simp)

/-- Each branch of `deleteTransaction` either leaves the state unchanged or
reports success. -/
lemma deleteTransaction_cases (st : DBState) (id : Nat) :
    (deleteTransaction st id).1 = st ∨
      (deleteTransaction st id).2 = .ok true := by
  unfold deleteTransaction
  split
  · exact Or.inl rfl
  next transaction hfind =>
    split
    · exact Or.inl rfl
    next product hprod =>
      dsimp only []
      split
      · exact Or.inl rfl
      · exact Or.inr rfl

/-- On a thrown error, `deleteTransaction` has run no write. -/
lemma deleteTransaction_error_frame (st : DBState) (id : Nat) (e : DBError)
    (herr : (deleteTransaction st id).2 = .error e) :
    (deleteTransaction st id).1 = st := by
  cases deleteTransaction_cases st id with
  | inl h => exact h
  | inr h =>
    rw [h] at herr
    exact absurd herr (by simp)

/-- Any operation that throws returns the database unchanged. -/
lemma applyOp_error_frame (st : DBState) (op : Op) (e : DBError)
    (herr : opError st op = some e) : applyOp st op = st := by
  cases op with
  | record r =>
    show (createStockTransaction st r.productId r.type r.quantity r.notes
      r.referenceNo r.batchNumber r.batchExpiryDate).1 = st
    have herr2 : (match (createStockTransaction st r.productId r.type
        r.quantity r.notes r.referenceNo r.batchNumber
        r.batchExpiryDate).2 with
      | .error e2 => some e2
      | .ok _ => none) = some e := herr
    cases h2 : (createStockTransaction st r.productId r.type r.quantity
        r.notes r.referenceNo r.batchNumber r.batchExpiryDate).2 with
    | error e2 =>
      exact createStockTransaction_error_frame st r.productId r.type
        r.quantity r.notes r.referenceNo r.batchNumber r.batchExpiryDate e2 h2
    | ok res =>
      rw [h2] at herr2
      exact absurd herr2 (by simp)
  | remove id =>
    show (deleteTransaction st id).1 = st
    have herr2 : (match (deleteTransaction st id).2 with
      | .error e2 => some e2
      | .ok _ => none) = some e := herr
    cases h2 : (deleteTransaction st id).2 with
    | error e2 => exact deleteTransaction_error_frame st id e2 h2
    | ok res =>
      rw [h2] at herr2
      exact absurd herr2 (by simp)

/-- Valid operations keep every cached stock non-negative, sequentially. -/
lemma nonNegStock_runOps (ops : List Op) : ∀ st : DBState, nonNegStock st →
    (∀ op ∈ ops, validOp op) → nonNegStock (runOps st ops) := by
  induction ops with
  | nil =>
    intro st h _
    exact h
  | cons op rest ih =>
    intro st h hv
    have h1 : nonNegStock (applyOp st op) := by
      cases op with
      | record r =>
        exact nonNegStock_createStockTransaction st r h
          (hv _ (List.mem_cons_self _ rest))
      | remove id => exact nonNegStock_deleteTransaction st id h
    exact ih (applyOp st op) h1 (fun o ho => hv o (List.mem_cons_of_mem op ho))

/-- Counterexample to C2 as stated: the code places no restriction on the
quantity argument, and an ADJUST with a negative quantity is written through
to the cache, driving `current_stock` below zero.  Starting from a product
with stock 0, one `createStockTransaction(1, ADJUST, -5)` call leaves
`current_stock = -5`. -/
theorem c2_nonnegativity_counterexample :
    stockOf (runOps demoState
        [Op.record { productId := 1, type := .ADJUST, quantity := -5,
                     notes := "", referenceNo := none, batchNumber := none,
                     batchExpiryDate := none }]) 1
      = some (-5) ∧ ((-5 : Rat) < 0) := by
  constructor
  · norm_num [runOps, applyOp, applyMovReq, createStockTransaction,
      insertMovementPhase, getProductById, demoState, demoProduct,
      computeNewStock, updateProductStock, stockOf, List.find?, List.foldl]
  · norm_num

/-- **C2** (amended).  No sequence of operations whose quantities satisfy
the spec's preconditions (positive for IN/OUT, non-negative for ADJUST;
reversals unrestricted) can make any product's `current_stock` negative;
and every operation that throws — in particular an OUT or a reversal that
would drive the balance below zero — returns the database unchanged.
(The unamended claim is false: `createStockTransaction` never validates its
quantity, so an ADJUST or IN with negative quantity can drive the cached
stock negative, see the counterexample.) -/
theorem c2_nonnegativity_amended (st : DBState) (ops : List Op)
    (h0 : nonNegStock st) (hv : ∀ op ∈ ops, validOp op)
    (st2 : DBState) (op2 : Op) (e : DBError)
    (herr : opError st2 op2 = some e) :
    nonNegStock (runOps st ops) ∧ applyOp st2 op2 = st2 :=
  ⟨nonNegStock_runOps ops st h0 hv, applyOp_error_frame st2 op2 e herr⟩

/-- A valid sample sequence for the C2 witness: stock in 50, stock out 20,
then attempt to reverse the IN movement (refused: balance would be -20). -/
def c2Ops : List Op :=
  [.record { productId := 1, type := .IN, quantity := 50, notes := "",
             referenceNo := none, batchNumber := none, batchExpiryDate := none },
   .record { productId := 1, type := .OUT, quantity := 20, notes := "",
             referenceNo := none, batchNumber := none, batchExpiryDate := none },
   .remove 1]

/-- A rejected operation for the C2 witness: OUT 60 from a stock of 50. -/
def c2Op2 : Op :=
  .record { productId := 1, type := .OUT, quantity := 60, notes := "",
            referenceNo := none, batchNumber := none, batchExpiryDate := none }

/-- Witness for the amended C2 at concrete inputs. -/
theorem c2_nonnegativity_amended_witness :
    nonNegStock demoState ∧ (∀ op ∈ c2Ops, validOp op) ∧
    opError stockedState c2Op2 = some .InsufficientStock ∧
    (nonNegStock (runOps demoState c2Ops) ∧
      applyOp stockedState c2Op2 = stockedState) := by
  have h1 : nonNegStock demoState := by
    simp [nonNegStock, demoState, demoProduct]
  have h2 : ∀ op ∈ c2Ops, validOp op := by
    intro op hop
    simp only [c2Ops, List.mem_cons, List.not_mem_nil, or_false] at hop
    rcases hop with h | h | h <;> subst h <;> norm_num [validOp, validMovReq]
  have h3 : opError stockedState c2Op2 = some .InsufficientStock := by
    norm_num [opError, c2Op2, createStockTransaction, insertMovementPhase,
      getProductById, stockedState, stockedProduct, computeNewStock,
      List.find?]
  exact ⟨h1, h2, h3,
    c2_nonnegativity_amended demoState c2Ops h1 h2 stockedState c2Op2
      .InsufficientStock h3⟩

/-- Counterexample to C3 as stated: the ledger insert and the cache update
of `createStockTransaction` are two independently awaited statements with no
enclosing transaction, so a fault between them leaves the inserted row
without the cache update.  Concretely: from a consistent state with stock 0,
a faulted IN of 5 leaves a ledger summing to 5 under a cache still reading
0 — the cache is inconsistent with the ledger sum. -/
theorem c3_atomicity_counterexample :
    balanceInv demoState ∧
    ¬ balanceInv (createStockTransactionFaulted demoState 1 .IN 5 "" none
      none none).1 := by
  constructor
  · simp [balanceInv, demoState, demoProduct, ledgerBalance, ledgerSum]
  · intro h
    have := h { demoProduct with current_stock := 0 }
      (by simp [createStockTransactionFaulted, insertMovementPhase,
        getProductById, demoState, demoProduct, List.find?, computeNewStock,
        mkMovement])
    rw [show ({ demoProduct with current_stock := 0 } : Product).id = 1
      from rfl] at this
    norm_num [createStockTransactionFaulted, insertMovementPhase,
      getProductById, demoState, demoProduct, List.find?, computeNewStock,
      mkMovement, ledgerBalance, ledgerSum, applyMov, List.filter,
      List.foldl] at this

/-- **C3** (amended).  The two writes of `createStockTransaction` are
sequential independent statements, not one atomic unit.  When no fault
occurs both writes apply and the cache stays consistent with the ledger
sum; but if execution faults between the ledger insert and the cache
update, the inserted row survives while the cache is not updated, leaving
`current_stock` inconsistent with the ledger sum (shown here for an IN of
any non-zero quantity on a consistent state). -/
theorem c3_atomicity_amended (st : DBState) (productId : Nat) (q : Rat)
    (p : Product) (notes : String) (referenceNo batchNumber : Option String)
    (batchExpiryDate : Option Rat) (hinv : balanceInv st)
    (hp : getProductById st productId = some p) (hq : q ≠ 0) :
    balanceInv (createStockTransaction st productId .IN q notes referenceNo
      batchNumber batchExpiryDate).1 ∧
    ¬ balanceInv (createStockTransactionFaulted st productId .IN q notes
      referenceNo batchNumber batchExpiryDate).1 := by
  constructor
  · exact balanceInv_createStockTransaction st productId .IN q notes
      referenceNo batchNumber batchExpiryDate hinv
  · have hok : ¬ (MovType.IN = MovType.OUT ∧
        computeNewStock p.current_stock MovType.IN q < 0) :=
      fun h => MovType.noConfusion h.1
    have heq := insertMovementPhase_eq_ok st productId MovType.IN q notes
      referenceNo batchNumber batchExpiryDate p hp hok
    intro hinv2
    unfold createStockTransactionFaulted at hinv2
    rw [heq] at hinv2
    have hmem : p ∈ st.products := getProductById_mem hp
    have hpid : p.id = productId := getProductById_id hp
    have hbal := hinv2 p hmem
    rw [show ledgerBalance ({ st with
        movements := st.movements ++ [mkMovement st productId MovType.IN q
          notes referenceNo batchNumber batchExpiryDate p],
        nextMovementId := st.nextMovementId + 1 } : DBState) p.id =
      ledgerSum (st.movements ++ [mkMovement st productId MovType.IN q notes
        referenceNo batchNumber batchExpiryDate p]) p.id from rfl] at hbal
    rw [ledgerSum_append_one] at hbal
    rw [show (mkMovement st productId MovType.IN q notes referenceNo
      batchNumber batchExpiryDate p).product_id = productId from rfl] at hbal
    rw [if_pos hpid.symm] at hbal
    rw [applyMov_mk (ledgerSum st.movements p.id) MovType.IN q _ rfl rfl]
      at hbal
    have hold := hinv p hmem
    rw [show ledgerBalance st p.id = ledgerSum st.movements p.id from rfl]
      at hold
    rw [← hold] at hbal
    rw [show computeNewStock p.current_stock MovType.IN q =
      p.current_stock + q from rfl] at hbal
    have : q = 0 := by linarith
    exact hq this

/-- Witness for the amended C3 at concrete inputs. -/
theorem c3_atomicity_amended_witness :
    balanceInv demoState ∧ getProductById demoState 1 = some demoProduct ∧
    ((5 : Rat) ≠ 0) ∧
    (balanceInv (createStockTransaction demoState 1 .IN 5 "" none none
      none).1 ∧
     ¬ balanceInv (createStockTransactionFaulted demoState 1 .IN 5 "" none
      none none).1) := by
  have h1 : balanceInv demoState := by
    simp [balanceInv, demoState, demoProduct, ledgerBalance, ledgerSum]
  have h2 : getProductById demoState 1 = some demoProduct := rfl
  have h3 : (5 : Rat) ≠ 0 := by norm_num
  exact ⟨h1, h2, h3, c3_atomicity_amended demoState 1 5 demoProduct "" none
    none none h1 h2 h3⟩

/-- The quantity gate of the stock-in and stock-out screens
(StockOutScreen.js:71-74 and the stock-in screen): the typed text is parsed
with `parseFloat` and the submission is rejected with an inline alert when
the result is NaN or not positive, before `createStockTransaction` is ever
called.  A non-numeric input is modelled as `none`. -/
def screenQuantityCheck (qty : Option Rat) : Bool :=
  match qty with
  | none => false
  | some q => if q ≤ 0 then false else true

/-- A successful `deleteTransaction` removes the rows with the movement's id
and writes the reverted balance into the product cache. -/
lemma deleteTransaction_eq_ok (st : DBState) (id : Nat) (m : Movement)
    (p : Product) (hfind : getTransactionById st id = some m)
    (hp : getProductById st m.product_id = some p)
    (hguard : ¬ revertedStockOf p m < 0) :
    deleteTransaction st id =
      (updateProductStock
        { st with movements := st.movements.filter (fun mm => ¬ mm.id = id) }
        m.product_id (revertedStockOf p m), .ok true) := by
  unfold deleteTransaction
  simp only [hfind, hp]
  rw [if_neg hguard]

/-- A reversal whose reverted balance would be negative throws
IrreversibleMovement with no write. -/
lemma deleteTransaction_eq_err (st : DBState) (id : Nat) (m : Movement)
    (p : Product) (hfind : getTransactionById st id = some m)
    (hp : getProductById st m.product_id = some p)
    (hguard : revertedStockOf p m < 0) :
    deleteTransaction st id = (st, .error .IrreversibleMovement) := by
  unfold deleteTransaction
  simp only [hfind, hp]
  rw [if_pos hguard]

/-- Counterexample to C5 as stated: `createStockTransaction` contains no
input validation at all.  An IN with the non-positive quantity -3 on a
product holding 50 is not rejected with any error: it returns a success
result, appends a ledger row, and moves the cached stock to 47. -/
theorem c5_validation_counterexample :
    (createStockTransaction stockedState 1 .IN (-3) "" none none none).2 =
      .ok { id := 1, productId := 1, type := .IN, quantity := -3,
            unit := "pcs", oldStock := 50, newStock := 47 } ∧
    (createStockTransaction stockedState 1 .IN (-3) "" none none
      none).1.movements.length = 1 ∧
    stockOf (createStockTransaction stockedState 1 .IN (-3) "" none none
      none).1 1 = some 47 := by
  have hok : ¬ (MovType.IN = MovType.OUT ∧
      computeNewStock stockedProduct.current_stock MovType.IN (-3) < 0) :=
    fun h => MovType.noConfusion h.1
  have heq := createStockTransaction_eq_ok stockedState 1 MovType.IN (-3) ""
    none none none stockedProduct rfl hok
  rw [heq]
  refine ⟨?_, ?_, ?_⟩
  · norm_num [stockedProduct, computeNewStock, stockedState]
  · rfl
  · norm_num [stockOf, updateProductStock, getProductById, stockedState,
      stockedProduct, computeNewStock, List.find?, mkMovement]

/-- **C5** (amended).  `createStockTransaction` itself performs no quantity
validation: an IN with a non-positive quantity is accepted, writes a ledger
row and mutates the balance.  The non-positive-quantity rejection the spec
describes is performed by the UI caller screens (their quantity gate fails
for every quantity <= 0), before `createStockTransaction` is invoked. -/
theorem c5_validation_amended (st : DBState) (productId : Nat) (q : Rat)
    (p : Product) (notes : String) (referenceNo batchNumber : Option String)
    (batchExpiryDate : Option Rat)
    (hp : getProductById st productId = some p) (hq : q ≤ 0) :
    screenQuantityCheck (some q) = false ∧
    (createStockTransaction st productId .IN q notes referenceNo batchNumber
      batchExpiryDate).2 =
      .ok { id := st.nextMovementId, productId := productId, type := .IN,
            quantity := q, unit := p.unit, oldStock := p.current_stock,
            newStock := p.current_stock + q } ∧
    (createStockTransaction st productId .IN q notes referenceNo batchNumber
      batchExpiryDate).1.movements.length = st.movements.length + 1 := by
  have hok : ¬ (MovType.IN = MovType.OUT ∧
      computeNewStock p.current_stock MovType.IN q < 0) :=
    fun h => MovType.noConfusion h.1
  have heq := createStockTransaction_eq_ok st productId MovType.IN q notes
    referenceNo batchNumber batchExpiryDate p hp hok
  refine ⟨?_, ?_, ?_⟩
  · show (if q ≤ 0 then false else true) = false
    rw [if_pos hq]
  · rw [heq]
    rfl
  · rw [heq]
    show (st.movements ++ [mkMovement st productId MovType.IN q notes
      referenceNo batchNumber batchExpiryDate p]).length =
      st.movements.length + 1
    rw [List.length_append]
    rfl

/-- Witness for the amended C5 at concrete inputs. -/
theorem c5_validation_amended_witness :
    getProductById stockedState 1 = some stockedProduct ∧
    ((-3 : Rat) ≤ 0) ∧
    (screenQuantityCheck (some (-3)) = false ∧
     (createStockTransaction stockedState 1 .IN (-3) "" none none none).2 =
       .ok { id := 1, productId := 1, type := .IN, quantity := -3,
             unit := "pcs", oldStock := 50, newStock := 50 + (-3) } ∧
     (createStockTransaction stockedState 1 .IN (-3) "" none none
       none).1.movements.length = 0 + 1) :=
  ⟨rfl, by norm_num,
   c5_validation_amended stockedState 1 (-3) stockedProduct "" none none none
     rfl (by norm_num)⟩

lemma find?_append_of_forall_ne (l1 l2 : List Movement) (nid : Nat)
    (h : ∀ m ∈ l1, m.id ≠ nid) :
    (l1 ++ l2).find? (fun m => m.id = nid) =
      l2.find? (fun m => m.id = nid) := by
  induction l1 with
  | nil => rfl
  | cons a t ih =>
    simp only [List.cons_append, List.find?]
    rw [decide_eq_false (h a (List.mem_cons_self a t))]
    exact ih (fun m hm => h m (List.mem_cons_of_mem a hm))

lemma filter_ne_of_forall_ne (l : List Movement) (nid : Nat)
    (h : ∀ m ∈ l, m.id ≠ nid) :
    l.filter (fun mm => ¬ mm.id = nid) = l := by
  induction l with
  | nil => rfl
  | cons a t ih =>
    simp only [List.filter]
    rw [decide_eq_true (h a (List.mem_cons_self a t))]
    rw [ih (fun m hm => h m (List.mem_cons_of_mem a hm))]

/-- **C10** (implicit claim).  Deleting a movement of type ADJUST leaves the
product's cached `current_stock` unchanged: the reversal arithmetic of
`deleteTransaction` only handles IN and OUT, so for an ADJUST entry the
reverted balance written back equals the current balance, while the ledger
row itself is removed without compensating the stock it set. -/
theorem c10_delete_adjust_keeps_stock (st : DBState) (mid : Nat)
    (m : Movement) (p : Product)
    (hfind : getTransactionById st mid = some m) (hty : m.type = .ADJUST)
    (hp : getProductById st m.product_id = some p)
    (h0 : 0 ≤ p.current_stock) :
    (deleteTransaction st mid).2 = .ok true ∧
    stockOf (deleteTransaction st mid).1 m.product_id =
      some p.current_stock ∧
    (deleteTransaction st mid).1.movements =
      st.movements.filter (fun mm => ¬ mm.id = mid) := by
  have hrev : revertedStockOf p m = p.current_stock := by
    unfold revertedStockOf
    rw [hty]
  have hguard : ¬ revertedStockOf p m < 0 := by
    rw [hrev]
    exact not_lt.2 h0
  have heq := deleteTransaction_eq_ok st mid m p hfind hp hguard
  refine ⟨by rw [heq], ?_, by rw [heq]; rfl⟩
  rw [heq]
  have hp1 : getProductById ({ st with
      movements := st.movements.filter (fun mm => ¬ mm.id = mid) } : DBState)
      m.product_id = some p := hp
  unfold stockOf
  rw [getProductById_updateProductStock _ m.product_id _ p hp1]
  rw [hrev]
  rfl

/-- Concrete state for the C10 witness: one product whose stock 40 was set
by a single ADJUST movement. -/
def adjProduct : Product :=
  { id := 1, name := "Beras", current_stock := 40, unit := "pcs",
    min_stock_threshold := 10, is_active := true }

/-- One ADJUST ledger row that set the stock to 40. -/
def adjMovement : Movement :=
  { id := 1, product_id := 1, type := .ADJUST, quantity := 40, unit := "pcs",
    notes := "", reference_no := none, balance_after := 40,
    batch_number := none, batch_expiry_date := none }

/-- State whose ledger holds exactly the ADJUST movement. -/
def adjState : DBState :=
  { products := [adjProduct], movements := [adjMovement],
    nextMovementId := 2, notifications := [] }

/-- Witness for C10: deleting the ADJUST row removes it from the ledger but
leaves `current_stock` at 40. -/
theorem c10_delete_adjust_keeps_stock_witness :
    getTransactionById adjState 1 = some adjMovement ∧
    adjMovement.type = .ADJUST ∧
    getProductById adjState adjMovement.product_id = some adjProduct ∧
    ((0 : Rat) ≤ adjProduct.current_stock) ∧
    ((deleteTransaction adjState 1).2 = .ok true ∧
     stockOf (deleteTransaction adjState 1).1 adjMovement.product_id =
       some adjProduct.current_stock ∧
     (deleteTransaction adjState 1).1.movements =
       adjState.movements.filter (fun mm => ¬ mm.id = 1)) :=
  ⟨rfl, rfl, rfl, by norm_num [adjProduct],
   c10_delete_adjust_keeps_stock adjState 1 adjMovement adjProduct rfl rfl
     rfl (by norm_num [adjProduct])⟩

/-- **C6** (Reversal symmetry).  Recording an IN movement of quantity q on a
product and then deleting (reversing) that same movement restores the
product's cached `current_stock` to exactly its pre-movement value and the
ledger to its pre-movement rows; and a reversal whose recomputed balance (as
if the movement had never occurred: IN subtracts its quantity back out, OUT
adds it back) would be negative fails with IrreversibleMovement, leaving the
state unchanged. -/
theorem c6_reversal_symmetry (st : DBState) (productId : Nat) (q : Rat)
    (p : Product) (notes : String) (referenceNo batchNumber : Option String)
    (batchExpiryDate : Option Rat)
    (hp : getProductById st productId = some p) (h0 : 0 ≤ p.current_stock)
    (hfresh : ∀ m ∈ st.movements, m.id ≠ st.nextMovementId)
    (st3 : DBState) (mid : Nat) (m3 : Movement) (p3 : Product)
    (hfind3 : getTransactionById st3 mid = some m3)
    (hp3 : getProductById st3 m3.product_id = some p3)
    (hneg3 : revertedStockOf p3 m3 < 0) :
    ((deleteTransaction (createStockTransaction st productId .IN q notes
        referenceNo batchNumber batchExpiryDate).1 st.nextMovementId).2 =
      .ok true ∧
     stockOf (deleteTransaction (createStockTransaction st productId .IN q
        notes referenceNo batchNumber batchExpiryDate).1
        st.nextMovementId).1 productId = some p.current_stock ∧
     (deleteTransaction (createStockTransaction st productId .IN q notes
        referenceNo batchNumber batchExpiryDate).1
        st.nextMovementId).1.movements = st.movements) ∧
    deleteTransaction st3 mid = (st3, .error .IrreversibleMovement) := by
  refine ⟨?_, deleteTransaction_eq_err st3 mid m3 p3 hfind3 hp3 hneg3⟩
  have hok : ¬ (MovType.IN = MovType.OUT ∧
      computeNewStock p.current_stock MovType.IN q < 0) :=
    fun h => MovType.noConfusion h.1
  have heq := createStockTransaction_eq_ok st productId MovType.IN q notes
    referenceNo batchNumber batchExpiryDate p hp hok
  rw [heq]
  set mov : Movement := mkMovement st productId MovType.IN q notes
    referenceNo batchNumber batchExpiryDate p with hmov
  set pIn : Product := { p with current_stock := p.current_stock + q }
    with hpIn
  set stF : DBState := updateProductStock
    { st with
      movements := st.movements ++ [mov],
      nextMovementId := st.nextMovementId + 1 }
    productId (computeNewStock p.current_stock MovType.IN q) with hstF
  have hfindF : getTransactionById stF st.nextMovementId = some mov := by
    show (st.movements ++ [mov]).find? (fun m => m.id = st.nextMovementId) =
      some mov
    rw [find?_append_of_forall_ne st.movements [mov] st.nextMovementId hfresh]
    simp [List.find?, hmov, mkMovement]
  have hp1 : getProductById
      ({ st with
         movements := st.movements ++ [mov],
         nextMovementId := st.nextMovementId + 1 } : DBState) productId =
      some p := hp
  have hpF : getProductById stF productId = some pIn := by
    rw [hstF]
    exact getProductById_updateProductStock _ productId _ p hp1
  have hpF2 : getProductById stF mov.product_id = some pIn := hpF
  have hrev : revertedStockOf pIn mov = p.current_stock := by
    show p.current_stock + q - q = p.current_stock
    exact add_sub_cancel_right p.current_stock q
  have hguard : ¬ revertedStockOf pIn mov < 0 := by
    rw [hrev]
    exact not_lt.2 h0
  have hdel := deleteTransaction_eq_ok stF st.nextMovementId mov pIn hfindF
    hpF2 hguard
  rw [show mov.product_id = productId from rfl] at hdel
  have hmovs : stF.movements.filter
      (fun mm => ¬ mm.id = st.nextMovementId) = st.movements := by
    show (st.movements ++ [mov]).filter
      (fun mm => ¬ mm.id = st.nextMovementId) = st.movements
    rw [List.filter_append]
    rw [filter_ne_of_forall_ne st.movements st.nextMovementId hfresh]
    show st.movements ++ List.filter _ [mov] = st.movements
    simp [hmov, mkMovement, List.filter]
  refine ⟨by rw [hdel], ?_, ?_⟩
  · rw [hdel]
    have hpDel : getProductById
        ({ stF with
           movements :=
             stF.movements.filter (fun mm => ¬ mm.id = st.nextMovementId) }
          : DBState)
        productId = some pIn := hpF
    have hrw := getProductById_updateProductStock _ productId
      (revertedStockOf pIn mov) pIn hpDel
    unfold stockOf
    dsimp only []
    rw [hrw]
    show some (revertedStockOf pIn mov) = some p.current_stock
    rw [hrev]
  · rw [hdel]
    show stF.movements.filter (fun mm => ¬ mm.id = st.nextMovementId) =
      st.movements
    exact hmovs

/-- An IN of 10 whose reversal is impossible once the stock was consumed. -/
def c6FailMovIn : Movement :=
  { id := 1, product_id := 1, type := .IN, quantity := 10, unit := "pcs",
    notes := "", reference_no := none, balance_after := 10,
    batch_number := none, batch_expiry_date := none }

/-- An OUT of 10 that consumed the stock again. -/
def c6FailMovOut : Movement :=
  { id := 2, product_id := 1, type := .OUT, quantity := 10, unit := "pcs",
    notes := "", reference_no := none, balance_after := 0,
    batch_number := none, batch_expiry_date := none }

/-- Stock 0 after IN 10 then OUT 10: deleting the IN would go negative. -/
def c6FailState : DBState :=
  { products := [demoProduct], movements := [c6FailMovIn, c6FailMovOut],
    nextMovementId := 3, notifications := [] }

/-- Witness for C6: IN 10 then reversal restores stock 0 exactly, and the
impossible reversal in `c6FailState` is refused. -/
theorem c6_reversal_symmetry_witness :
    getProductById demoState 1 = some demoProduct ∧
    ((0 : Rat) ≤ demoProduct.current_stock) ∧
    (∀ m ∈ demoState.movements, m.id ≠ demoState.nextMovementId) ∧
    getTransactionById c6FailState 1 = some c6FailMovIn ∧
    getProductById c6FailState c6FailMovIn.product_id = some demoProduct ∧
    revertedStockOf demoProduct c6FailMovIn < 0 ∧
    (((deleteTransaction (createStockTransaction demoState 1 .IN 10 "" none
        none none).1 demoState.nextMovementId).2 = .ok true ∧
      stockOf (deleteTransaction (createStockTransaction demoState 1 .IN 10
        "" none none none).1 demoState.nextMovementId).1 1 =
        some demoProduct.current_stock ∧
      (deleteTransaction (createStockTransaction demoState 1 .IN 10 "" none
        none none).1 demoState.nextMovementId).1.movements =
        demoState.movements) ∧
     deleteTransaction c6FailState 1 =
       (c6FailState, .error .IrreversibleMovement)) :=
  ⟨rfl, by norm_num [demoProduct], by simp [demoState], rfl, rfl,
   by norm_num [revertedStockOf, demoProduct, c6FailMovIn],
   c6_reversal_symmetry demoState 1 10 demoProduct "" none none none rfl
     (by norm_num [demoProduct]) (by simp [demoState]) c6FailState 1
     c6FailMovIn demoProduct rfl rfl
     (by norm_num [revertedStockOf, demoProduct, c6FailMovIn])⟩

/-- Priority classification of `createNotification` (notifications.js
switch): LOW_STOCK and EXPIRING_SOON are HIGH, stock movements MEDIUM,
product registry changes LOW. -/
def priorityFor (type : NotifType) : NotifPriority :=
  match type with
  | .LOW_STOCK => .HIGH
  | .EXPIRING_SOON => .HIGH
  | .STOCK_IN => .MEDIUM
  | .STOCK_OUT => .MEDIUM
  | .PRODUCT_ADDED => .LOW
  | .PRODUCT_EDITED => .LOW

/-- `createNotification` (notifications.js:31): INSERT one row with the
derived priority, a denormalized product snapshot, `is_read = 0`, and
`created_at` defaulting to the current time. -/
def createNotification (st : DBState) (type : NotifType)
    (productId : Option Nat) (productName : String) (quantity : Rat)
    (now : Rat) : DBState :=
  { st with
    notifications := st.notifications ++
      [{ type := type, priority := priorityFor type, product_id := productId,
         product_name := productName, quantity := quantity,
         created_at := now, is_read := false }] }

/-- `checkRecentNotification` (notifications.js:510): does a notification of
this type for this product exist with
`datetime(created_at) >= datetime('now', '-hoursAgo hours')`? -/
def checkRecentNotification (notifs : List Notification) (type : NotifType)
    (productId : Nat) (hoursAgo : Rat) (now : Rat) : Bool :=
  notifs.any (fun n => decide (n.type = type ∧ n.product_id = some productId ∧
    now - hoursAgo ≤ n.created_at))

/-- The low-stock sweep's selection (notifications.js:403-407):
`is_active = 1 AND current_stock <= min_stock_threshold AND
min_stock_threshold > 0`. -/
def lowStockProducts (st : DBState) : List Product :=
  st.products.filter (fun p => p.is_active &&
    decide (p.current_stock ≤ p.min_stock_threshold) &&
    decide (0 < p.min_stock_threshold))

/-- One iteration of the low-stock sweep loop (notifications.js:415-431):
skip the product when a LOW_STOCK notification for it was created within
the last 24 hours, otherwise create one. -/
def lowStockStep (now : Rat) (acc : DBState) (p : Product) : DBState :=
  if checkRecentNotification acc.notifications .LOW_STOCK p.id 24 now
  then acc
  else createNotification acc .LOW_STOCK (some p.id) p.name p.current_stock now

/-- `checkLowStockAlerts` (notifications.js:395-447): select the low-stock
products, then process each in order with the 24-hour dedup check. -/
def checkLowStockAlerts (st : DBState) (now : Rat) : DBState :=
  (lowStockProducts st).foldl (lowStockStep now) st

/-- Number of notifications of one type for one product. -/
def countNotifs (st : DBState) (type : NotifType) (productId : Nat) : Nat :=
  (st.notifications.filter (fun n => decide (n.type = type) &&
    decide (n.product_id = some productId))).length

lemma checkRecentNotification_append (l : List Notification)
    (n : Notification) (type : NotifType) (productId : Nat)
    (hoursAgo now : Rat) :
    checkRecentNotification (l ++ [n]) type productId hoursAgo now =
      (checkRecentNotification l type productId hoursAgo now ||
        decide (n.type = type ∧ n.product_id = some productId ∧
          now - hoursAgo ≤ n.created_at)) := by
  unfold checkRecentNotification
  rw [List.any_append]
  simp [List.any]

lemma countNotifs_append (st : DBState) (l : List Notification)
    (n : Notification) (type : NotifType) (productId : Nat)
    (hl : st.notifications = l ++ [n]) :
    countNotifs st type productId =
      (l.filter (fun m => decide (m.type = type) &&
        decide (m.product_id = some productId))).length +
      (if n.type = type ∧ n.product_id = some productId then 1 else 0) := by
  unfold countNotifs
  rw [hl, List.filter_append, List.length_append]
  by_cases h : n.type = type ∧ n.product_id = some productId
  · rw [if_pos h]
    simp [List.filter, h.1, h.2]
  · rw [if_neg h]
    rcases not_and_or.1 h with h1 | h1 <;> simp [List.filter, h1]

lemma lowStockStep_products (now : Rat) (acc : DBState) (p : Product) :
    (lowStockStep now acc p).products = acc.products := by
  unfold lowStockStep
  split
  · rfl
  · rfl

lemma sweep_products (now : Rat) (ps : List Product) :
    ∀ acc : DBState, (ps.foldl (lowStockStep now) acc).products =
      acc.products := by
  induction ps with
  | nil =>
    intro acc
    rfl
  | cons p ps ih =>
    intro acc
    rw [List.foldl_cons, ih (lowStockStep now acc p),
      lowStockStep_products]

/-- The row `checkLowStockAlerts` inserts for a low product at time `now`. -/
def mkLowNotif (p : Product) (now : Rat) : Notification :=
  { type := .LOW_STOCK, priority := priorityFor .LOW_STOCK,
    product_id := some p.id, product_name := p.name,
    quantity := p.current_stock, created_at := now, is_read := false }

lemma sweep_notifications_mono (now : Rat) (ps : List Product) :
    ∀ (acc : DBState) (n : Notification), n ∈ acc.notifications →
      n ∈ (ps.foldl (lowStockStep now) acc).notifications := by
  induction ps with
  | nil =>
    intro acc n hn
    exact hn
  | cons p ps ih =>
    intro acc n hn
    rw [List.foldl_cons]
    refine ih (lowStockStep now acc p) n ?_
    unfold lowStockStep
    split
    · exact hn
    · exact List.mem_append_left _ hn

/-- Once a recent LOW_STOCK notification for product `X` exists, the sweep
loop adds no further one for `X`. -/
lemma sweep_count_of_recent (now : Rat) (X : Nat) (ps : List Product) :
    ∀ acc : DBState,
    checkRecentNotification acc.notifications .LOW_STOCK X 24 now = true →
    countNotifs (ps.foldl (lowStockStep now) acc) .LOW_STOCK X =
      countNotifs acc .LOW_STOCK X ∧
    checkRecentNotification
      (ps.foldl (lowStockStep now) acc).notifications .LOW_STOCK X 24 now =
      true := by
  induction ps with
  | nil =>
    intro acc h
    exact ⟨rfl, h⟩
  | cons p ps ih =>
    intro acc h
    rw [List.foldl_cons]
    by_cases hskip : checkRecentNotification acc.notifications .LOW_STOCK
        p.id 24 now = true
    · rw [show lowStockStep now acc p = acc from by
        unfold lowStockStep
        rw [if_pos hskip]]
      exact ih acc h
    · have hpid : p.id ≠ X := by
        intro he
        rw [he] at hskip
        exact hskip h
      rw [show lowStockStep now acc p = createNotification acc .LOW_STOCK
          (some p.id) p.name p.current_stock now from by
        unfold lowStockStep
        rw [if_neg hskip]]
      set acc2 := createNotification acc .LOW_STOCK (some p.id) p.name
        p.current_stock now with hacc2
      have hcount2 : countNotifs acc2 .LOW_STOCK X =
          countNotifs acc .LOW_STOCK X := by
        rw [countNotifs_append acc2 acc.notifications _ .LOW_STOCK X rfl]
        rw [if_neg (fun hc => hpid (Option.some.inj hc.2))]
        rfl
      have hrecent2 : checkRecentNotification acc2.notifications .LOW_STOCK
          X 24 now = true := by
        rw [show acc2.notifications = acc.notifications ++
          [mkLowNotif p now] from rfl]
        rw [checkRecentNotification_append, h]
        rfl
      obtain ⟨hc, hr⟩ := ih acc2 hrecent2
      exact ⟨by rw [hc, hcount2], hr⟩

/-- With no recent LOW_STOCK notification for `X` and `X` among the swept
products, the sweep loop adds exactly one notification for `X`, stamped at
the sweep time. -/
lemma sweep_count_of_fresh (now : Rat) (X : Nat) (ps : List Product) :
    ∀ acc : DBState,
    checkRecentNotification acc.notifications .LOW_STOCK X 24 now = false →
    X ∈ ps.map (fun q => q.id) →
    countNotifs (ps.foldl (lowStockStep now) acc) .LOW_STOCK X =
      countNotifs acc .LOW_STOCK X + 1 ∧
    ∃ n ∈ (ps.foldl (lowStockStep now) acc).notifications,
      n.type = .LOW_STOCK ∧ n.product_id = some X ∧ n.created_at = now := by
  induction ps with
  | nil =>
    intro acc _ hX
    exact absurd hX (by simp)
  | cons p ps ih =>
    intro acc hfresh hX
    rw [List.foldl_cons]
    by_cases hpid : p.id = X
    · have hskip : checkRecentNotification acc.notifications .LOW_STOCK p.id
          24 now = false := by
        rw [hpid]
        exact hfresh
      rw [show lowStockStep now acc p = createNotification acc .LOW_STOCK
          (some p.id) p.name p.current_stock now from by
        unfold lowStockStep
        rw [hskip]
        rfl]
      set acc2 := createNotification acc .LOW_STOCK (some p.id) p.name
        p.current_stock now with hacc2
      have hcount2 : countNotifs acc2 .LOW_STOCK X =
          countNotifs acc .LOW_STOCK X + 1 := by
        rw [countNotifs_append acc2 acc.notifications _ .LOW_STOCK X rfl]
        rw [if_pos ⟨rfl, by rw [hpid]⟩]
        rfl
      have hrecent2 : checkRecentNotification acc2.notifications .LOW_STOCK
          X 24 now = true := by
        rw [show acc2.notifications = acc.notifications ++
          [mkLowNotif p now] from rfl]
        rw [checkRecentNotification_append, hfresh]
        rw [Bool.false_or]
        apply decide_eq_true
        refine ⟨rfl, ?_, ?_⟩
        · show some p.id = some X
          rw [hpid]
        · show now - 24 ≤ now
          linarith
      obtain ⟨hc, hr⟩ := sweep_count_of_recent now X ps acc2 hrecent2
      refine ⟨by rw [hc, hcount2], ?_⟩
      refine ⟨mkLowNotif p now, ?_, rfl,
        by show some p.id = some X; rw [hpid], rfl⟩
      refine sweep_notifications_mono now ps acc2 _ ?_
      rw [show acc2.notifications = acc.notifications ++
        [mkLowNotif p now] from rfl]
      exact List.mem_append_right _ (List.mem_singleton.2 rfl)
    · have hX2 : X ∈ ps.map (fun q => q.id) := by
        rcases List.mem_map.1 hX with ⟨q, hq, hqid⟩
        rcases List.mem_cons.1 hq with hq1 | hq1
        · exact absurd (hq1 ▸ hqid) hpid
        · exact List.mem_map.2 ⟨q, hq1, hqid⟩
      by_cases hskip : checkRecentNotification acc.notifications .LOW_STOCK
          p.id 24 now = true
      · rw [show lowStockStep now acc p = acc from by
          unfold lowStockStep
          rw [if_pos hskip]]
        exact ih acc hfresh hX2
      · rw [show lowStockStep now acc p = createNotification acc .LOW_STOCK
            (some p.id) p.name p.current_stock now from by
          unfold lowStockStep
          rw [if_neg hskip]]
        set acc2 := createNotification acc .LOW_STOCK (some p.id) p.name
          p.current_stock now with hacc2
        have hcount2 : countNotifs acc2 .LOW_STOCK X =
            countNotifs acc .LOW_STOCK X := by
          rw [countNotifs_append acc2 acc.notifications _ .LOW_STOCK X rfl]
          rw [if_neg (fun hc => hpid (Option.some.inj hc.2))]
          rfl
        have hfresh2 : checkRecentNotification acc2.notifications .LOW_STOCK
            X 24 now = false := by
          rw [show acc2.notifications = acc.notifications ++
            [{ type := .LOW_STOCK, priority := priorityFor .LOW_STOCK,
               product_id := some p.id, product_name := p.name,
               quantity := p.current_stock, created_at := now,
               is_read := false }] from rfl]
          rw [checkRecentNotification_append, hfresh]
          rw [Bool.false_or]
          apply decide_eq_false
          intro hc
          exact hpid (Option.some.inj hc.2.1)
        obtain ⟨hc, hr⟩ := ih acc2 hfresh2 hX2
        exact ⟨by rw [hc, hcount2], hr⟩

/-- **C7** (Dedup idempotence).  For a product that is active, at or below
its positive `min_stock_threshold`, and without any LOW_STOCK notification
within the first sweep's 24-hour lookback, running `checkLowStockAlerts`
twice — at t1 and then at t2 within 24 hours of t1 — creates exactly one
LOW_STOCK notification for that product, not two: the second sweep is
suppressed by the recency check on (type, product, 24h). -/
theorem c7_dedup_idempotence (st : DBState) (p : Product) (t1 t2 : Rat)
    (hmem : p ∈ st.products) (hact : p.is_active = true)
    (hlow : p.current_stock ≤ p.min_stock_threshold)
    (hthr : 0 < p.min_stock_threshold)
    (hnone : ∀ n ∈ st.notifications, n.type = .LOW_STOCK →
      n.product_id = some p.id → n.created_at < t1 - 24)
    (hwin : t2 ≤ t1 + 24) :
    countNotifs (checkLowStockAlerts (checkLowStockAlerts st t1) t2)
      .LOW_STOCK p.id = countNotifs st .LOW_STOCK p.id + 1 := by
  have hfresh1 : checkRecentNotification st.notifications .LOW_STOCK p.id 24
      t1 = false := by
    unfold checkRecentNotification
    rw [List.any_eq_false]
    intro n hn hd
    obtain ⟨ha, hb, hcge⟩ := of_decide_eq_true hd
    exact absurd hcge (not_le.2 (hnone n hn ha hb))
  have hXmem : p.id ∈ (lowStockProducts st).map (fun q => q.id) := by
    refine List.mem_map.2 ⟨p, ?_, rfl⟩
    refine List.mem_filter.2 ⟨hmem, ?_⟩
    rw [hact]
    simp [hlow, hthr]
  obtain ⟨hc1, n1, hn1mem, hty1, hpid1, hcr1⟩ :=
    sweep_count_of_fresh t1 p.id (lowStockProducts st) st hfresh1 hXmem
  have hrecent2 : checkRecentNotification
      (checkLowStockAlerts st t1).notifications .LOW_STOCK p.id 24 t2 =
      true := by
    unfold checkRecentNotification
    rw [List.any_eq_true]
    refine ⟨n1, hn1mem, decide_eq_true ⟨hty1, hpid1, ?_⟩⟩
    rw [hcr1]
    linarith
  obtain ⟨hc2, _⟩ := sweep_count_of_recent t2 p.id
    (lowStockProducts (checkLowStockAlerts st t1))
    (checkLowStockAlerts st t1) hrecent2
  show countNotifs ((lowStockProducts (checkLowStockAlerts st t1)).foldl
    (lowStockStep t2) (checkLowStockAlerts st t1)) .LOW_STOCK p.id =
    countNotifs st .LOW_STOCK p.id + 1
  rw [hc2]
  show countNotifs ((lowStockProducts st).foldl (lowStockStep t1) st)
    .LOW_STOCK p.id = countNotifs st .LOW_STOCK p.id + 1
  exact hc1

/-- A product sitting at 5 with threshold 10: low on stock. -/
def lowProduct : Product :=
  { id := 1, name := "Beras", current_stock := 5, unit := "pcs",
    min_stock_threshold := 10, is_active := true }

/-- State for the C7 witness: one low product, no notifications yet. -/
def lowState : DBState :=
  { products := [lowProduct], movements := [], nextMovementId := 1,
    notifications := [] }

/-- Witness for C7: sweeping at t=100 and again at t=110 yields exactly one
LOW_STOCK notification for the product. -/
theorem c7_dedup_idempotence_witness :
    lowProduct ∈ lowState.products ∧ lowProduct.is_active = true ∧
    lowProduct.current_stock ≤ lowProduct.min_stock_threshold ∧
    (0 : Rat) < lowProduct.min_stock_threshold ∧
    (∀ n ∈ lowState.notifications, n.type = .LOW_STOCK →
      n.product_id = some lowProduct.id → n.created_at < 100 - 24) ∧
    ((110 : Rat) ≤ 100 + 24) ∧
    countNotifs (checkLowStockAlerts (checkLowStockAlerts lowState 100) 110)
      .LOW_STOCK lowProduct.id = countNotifs lowState .LOW_STOCK
      lowProduct.id + 1 :=
  ⟨by simp [lowState], rfl, by norm_num [lowProduct],
   by norm_num [lowProduct], by simp [lowState], by norm_num,
   c7_dedup_idempotence lowState lowProduct 100 110 (by simp [lowState]) rfl
     (by norm_num [lowProduct]) (by norm_num [lowProduct])
     (by simp [lowState]) (by norm_num)⟩

/-- A (product, batch_number, batch_expiry_date) grouping key of the
`product_batches` view; rows with NULL batch_number are excluded. -/
abbrev BatchKey := Nat × String × Option Rat

/-- The grouping key of one ledger row, when batch-tagged. -/
def batchKeyOf (m : Movement) : Option BatchKey :=
  m.batch_number.map (fun b => (m.product_id, b, m.batch_expiry_date))

/-- One row's contribution to its group's
`SUM(CASE WHEN type = IN THEN quantity ELSE 0 END) -
 SUM(CASE WHEN type = OUT THEN quantity ELSE 0 END)`:
IN counts positively, OUT negatively, anything else (ADJUST) zero. -/
def batchContrib (m : Movement) : Rat :=
  match m.type with
  | .IN => m.quantity
  | .OUT => - m.quantity
  | .ADJUST => 0

/-- Net quantity of one batch group over a movement list. -/
def groupQuantity (l : List Movement) (k : BatchKey) : Rat :=
  ((l.filter (fun m => batchKeyOf m = some k)).map batchContrib).sum

/-- The distinct grouping keys of the batch-tagged movements. -/
def batchKeys (l : List Movement) : List BatchKey :=
  (l.filterMap batchKeyOf).dedup

/-- A row of the derived `product_batches` view. -/
structure BatchRow where
  product_id : Nat
  batch_number : String
  batch_expiry_date : Option Rat
  current_quantity : Rat
deriving DecidableEq, Repr

/-- The view row of one grouping key. -/
def mkBatchRow (l : List Movement) (k : BatchKey) : BatchRow :=
  { product_id := k.1, batch_number := k.2.1, batch_expiry_date := k.2.2,
    current_quantity := groupQuantity l k }

/-- The `product_batches` view (batchTracking.js:45-62): group the
batch-tagged movements by (product_id, batch_number, batch_expiry_date),
compute each group's net quantity, and keep the groups with
`current_quantity > 0` (the HAVING clause). -/
def productBatchesView (st : DBState) : List BatchRow :=
  ((batchKeys st.movements).map (mkBatchRow st.movements)).filter
    (fun r => 0 < r.current_quantity)

/-- `getTotalBatchQuantity` (batchTracking.js:178-198):
`SELECT SUM(current_quantity) FROM product_batches WHERE product_id = ?`
(an empty sum reads as 0). -/
def getTotalBatchQuantity (st : DBState) (productId : Nat) : Rat :=
  (((productBatchesView st).filter (fun r => r.product_id = productId)).map
    (fun r => r.current_quantity)).sum

lemma sum_map_add {K : Type} (ks : List K) (g h : K → Rat) :
    (ks.map (fun k => g k + h k)).sum = (ks.map g).sum + (ks.map h).sum := by
  induction ks with
  | nil => simp
  | cons a t ih =>
    simp only [List.map_cons, List.sum_cons, ih]
    ring

lemma sum_map_ite_of_not_mem {K : Type} [DecidableEq K] (ks : List K)
    (k0 : K) (c : Rat) (h : k0 ∉ ks) :
    (ks.map (fun k => if k = k0 then c else 0)).sum = 0 := by
  induction ks with
  | nil => rfl
  | cons a t ih =>
    simp only [List.map_cons, List.sum_cons]
    rw [if_neg (fun he => h (by rw [← he]; exact List.mem_cons_self a t))]
    rw [ih (fun ht => h (List.mem_cons_of_mem a ht))]
    norm_num

lemma sum_map_ite_eq {K : Type} [DecidableEq K] (ks : List K) (k0 : K)
    (c : Rat) (hnd : ks.Nodup) (hk : k0 ∈ ks) :
    (ks.map (fun k => if k = k0 then c else 0)).sum = c := by
  induction ks with
  | nil => exact absurd hk (List.not_mem_nil k0)
  | cons a t ih =>
    simp only [List.map_cons, List.sum_cons]
    rcases List.mem_cons.1 hk with h1 | h1
    · rw [if_pos h1.symm]
      have hnot : k0 ∉ t := h1 ▸ (List.nodup_cons.1 hnd).1
      rw [sum_map_ite_of_not_mem t k0 c hnot]
      norm_num
    · have ha : ¬ a = k0 := by
        intro he
        exact (List.nodup_cons.1 hnd).1 (he ▸ h1)
      rw [if_neg ha, ih (List.nodup_cons.1 hnd).2 h1]
      norm_num

/-- Summing group sums over a duplicate-free key list covering every key of
the list equals summing over all keyed elements: grouping partitions. -/
lemma list_sum_partition {α K : Type} [DecidableEq K] (key : α → Option K)
    (f : α → Rat) (l : List α) :
    ∀ ks : List K, ks.Nodup →
    (∀ a ∈ l, ∀ k, key a = some k → k ∈ ks) →
    (ks.map (fun k => ((l.filter (fun x => key x = some k)).map f).sum)).sum
      = ((l.filter (fun x => (key x).isSome)).map f).sum := by
  induction l with
  | nil =>
    intro ks _ _
    simp
  | cons a t ih =>
    intro ks hnd hcov
    have hcovt : ∀ b ∈ t, ∀ k, key b = some k → k ∈ ks :=
      fun b hb => hcov b (List.mem_cons_of_mem a hb)
    cases hka : key a with
    | none =>
      have h1 : ∀ k : K, (a :: t).filter (fun x => key x = some k) =
          t.filter (fun x => key x = some k) := by
        intro k
        simp [List.filter_cons, hka]
      have h2 : (a :: t).filter (fun x => (key x).isSome) =
          t.filter (fun x => (key x).isSome) := by
        simp [List.filter_cons, hka]
      rw [h2]
      rw [show (fun k : K =>
          (((a :: t).filter (fun x => key x = some k)).map f).sum) = (fun k =>
          ((t.filter (fun x => key x = some k)).map f).sum) from
        funext (fun k => by rw [h1 k])]
      exact ih ks hnd hcovt
    | some k0 =>
      have hk0 : k0 ∈ ks := hcov a (List.mem_cons_self a t) k0 hka
      have h1 : ∀ k : K,
          (((a :: t).filter (fun x => key x = some k)).map f).sum =
          (if k = k0 then f a else 0) +
            ((t.filter (fun x => key x = some k)).map f).sum := by
        intro k
        by_cases hk : k = k0
        · subst hk
          rw [if_pos rfl]
          simp [List.filter_cons, hka]
        · rw [if_neg hk]
          have hne : ¬ key a = some k := by
            rw [hka]
            intro he
            exact hk (Option.some.inj he).symm
          simp only [List.filter_cons, decide_eq_false hne]
          simp
      have h2 : (a :: t).filter (fun x => (key x).isSome) =
          a :: t.filter (fun x => (key x).isSome) := by
        simp [List.filter_cons, hka]
      rw [h2]
      rw [show (fun k : K =>
          (((a :: t).filter (fun x => key x = some k)).map f).sum) = (fun k =>
          (if k = k0 then f a else 0) +
            ((t.filter (fun x => key x = some k)).map f).sum) from
        funext (fun k => h1 k)]
      rw [sum_map_add]
      rw [show (fun k : K => if k = k0 then f a else 0) = (fun k =>
          if k = k0 then f a else 0) from rfl]
      rw [sum_map_ite_eq ks k0 (f a) hnd hk0]
      rw [ih ks hnd hcovt]
      simp

lemma batchKeyOf_product_id {m : Movement} {k : BatchKey}
    (h : batchKeyOf m = some k) : m.product_id = k.1 := by
  unfold batchKeyOf at h
  cases hb : m.batch_number with
  | none =>
    rw [hb] at h
    exact absurd h (by simp)
  | some b =>
    rw [hb] at h
    have := Option.some.inj h
    rw [← this]

lemma filter_key_eq_filter_product (l : List Movement) (k : BatchKey)
    (productId : Nat) (hk : k.1 = productId) :
    l.filter (fun m => batchKeyOf m = some k) =
      (l.filter (fun m => m.product_id = productId)).filter
        (fun m => batchKeyOf m = some k) := by
  induction l with
  | nil => rfl
  | cons a t ih =>
    by_cases ha : batchKeyOf a = some k
    · have hpid : a.product_id = productId := by
        rw [batchKeyOf_product_id ha, hk]
      simp [List.filter_cons, ha, hpid, ih]
    · by_cases hp : a.product_id = productId <;>
        simp [List.filter_cons, hp, ha, ih]

lemma foldl_applyMov_eq_sum (l : List Movement)
    (h : ∀ m ∈ l, m.type ≠ .ADJUST) :
    ∀ b : Rat, List.foldl applyMov b l = b + (l.map batchContrib).sum := by
  induction l with
  | nil =>
    intro b
    simp
  | cons m t ih =>
    intro b
    have hm : applyMov b m = b + batchContrib m := by
      unfold applyMov batchContrib
      cases hty : m.type with
      | IN => rfl
      | OUT => exact sub_eq_add_neg b m.quantity
      | ADJUST => exact absurd hty (h m (List.mem_cons_self m t))
    rw [List.foldl_cons, hm, ih (fun x hx => h x (List.mem_cons_of_mem m hx))]
    simp only [List.map_cons, List.sum_cons]
    ring

/-- **C8** (amended).  For a product all of whose movements are batch-tagged
and of type IN or OUT, and all of whose batch groups have positive net
quantity, the `product_batches` view total equals the product's
`current_stock` exactly (given the cache invariant).  As stated the claim's
inequality Σ(batch quantities) ≤ current_stock is false: an untagged OUT
lowers `current_stock` without touching any batch group (the spec's own
scenario), and exhausted groups are dropped by the HAVING clause, so the
active-batch total can exceed `current_stock`. -/
theorem c8_batch_partition_amended (st : DBState) (productId : Nat)
    (p : Product) (hp : getProductById st productId = some p)
    (hinv : balanceInv st)
    (htag : ∀ m ∈ st.movements, m.product_id = productId →
      (batchKeyOf m).isSome = true ∧ m.type ≠ .ADJUST)
    (hpos : ∀ k ∈ batchKeys st.movements, k.1 = productId →
      0 < groupQuantity st.movements k) :
    getTotalBatchQuantity st productId = p.current_stock := by
  have hview : getTotalBatchQuantity st productId =
      (((batchKeys st.movements).filter (fun k => k.1 = productId)).map
        (groupQuantity st.movements)).sum := by
    unfold getTotalBatchQuantity productBatchesView
    rw [List.filter_map, List.filter_map, List.map_map]
    rw [List.filter_filter]
    have hcongr : ∀ k ∈ batchKeys st.movements,
        (((fun r : BatchRow => decide (r.product_id = productId)) ∘
            mkBatchRow st.movements) k &&
         ((fun r : BatchRow => decide (0 < r.current_quantity)) ∘
            mkBatchRow st.movements) k) = decide (k.1 = productId) := by
      intro k hkmem
      show (decide (k.1 = productId) &&
        decide (0 < groupQuantity st.movements k)) = decide (k.1 = productId)
      by_cases hk : k.1 = productId
      · rw [decide_eq_true hk, decide_eq_true (hpos k hkmem hk)]
        rfl
      · rw [decide_eq_false hk]
        rfl
    rw [List.filter_congr hcongr]
    rfl
  rw [hview]
  set lp := st.movements.filter (fun m => m.product_id = productId) with hlp
  have hmapc : ∀ k ∈ (batchKeys st.movements).filter
      (fun k => k.1 = productId),
      groupQuantity st.movements k =
        ((lp.filter (fun m => batchKeyOf m = some k)).map batchContrib).sum := by
    intro k hkmem
    have hk : k.1 = productId := by
      have := (List.mem_filter.1 hkmem).2
      exact of_decide_eq_true this
    unfold groupQuantity
    rw [filter_key_eq_filter_product st.movements k productId hk]
  rw [List.map_congr_left hmapc]
  have hnd : ((batchKeys st.movements).filter
      (fun k => k.1 = productId)).Nodup :=
    (List.nodup_dedup _).filter _
  have hcov : ∀ m ∈ lp, ∀ k : BatchKey, batchKeyOf m = some k →
      k ∈ (batchKeys st.movements).filter (fun k => k.1 = productId) := by
    intro m hm k hmk
    have hm1 : m ∈ st.movements := (List.mem_filter.1 hm).1
    have hm2 : m.product_id = productId :=
      of_decide_eq_true (List.mem_filter.1 hm).2
    refine List.mem_filter.2 ⟨?_, ?_⟩
    · unfold batchKeys
      rw [List.mem_dedup]
      exact List.mem_filterMap.2 ⟨m, hm1, hmk⟩
    · rw [← batchKeyOf_product_id hmk, hm2]
      exact decide_eq_true rfl
  rw [list_sum_partition batchKeyOf batchContrib lp _ hnd hcov]
  have htagged : lp.filter (fun m => (batchKeyOf m).isSome) = lp := by
    rw [List.filter_eq_self]
    intro m hm
    exact (htag m (List.mem_filter.1 hm).1
      (of_decide_eq_true (List.mem_filter.1 hm).2)).1
  rw [htagged]
  have hnoadj : ∀ m ∈ lp, m.type ≠ .ADJUST := by
    intro m hm
    exact (htag m (List.mem_filter.1 hm).1
      (of_decide_eq_true (List.mem_filter.1 hm).2)).2
  have hfold := foldl_applyMov_eq_sum lp hnoadj 0
  have hcur : p.current_stock = List.foldl applyMov 0 lp := by
    have := hinv p (getProductById_mem hp)
    rw [getProductById_id hp] at this
    exact this
  rw [hcur, hfold]
  ring

/-- A product fully stocked through one batch-tagged IN of 20. -/
def c8WitProduct : Product :=
  { id := 1, name := "Beras", current_stock := 20, unit := "pcs",
    min_stock_threshold := 10, is_active := true }

/-- The batch-tagged IN movement behind `c8WitProduct`. -/
def c8WitMov : Movement :=
  { id := 1, product_id := 1, type := .IN, quantity := 20, unit := "pcs",
    notes := "", reference_no := none, balance_after := 20,
    batch_number := some "B100", batch_expiry_date := some 60 }

/-- State for the C8 witness. -/
def c8WitState : DBState :=
  { products := [c8WitProduct], movements := [c8WitMov],
    nextMovementId := 2, notifications := [] }

/-- Witness for the amended C8 at concrete inputs. -/
theorem c8_batch_partition_amended_witness :
    getProductById c8WitState 1 = some c8WitProduct ∧
    balanceInv c8WitState ∧
    (∀ m ∈ c8WitState.movements, m.product_id = 1 →
      (batchKeyOf m).isSome = true ∧ m.type ≠ .ADJUST) ∧
    (∀ k ∈ batchKeys c8WitState.movements, k.1 = 1 →
      0 < groupQuantity c8WitState.movements k) ∧
    getTotalBatchQuantity c8WitState 1 = c8WitProduct.current_stock := by
  have h1 : getProductById c8WitState 1 = some c8WitProduct := rfl
  have h2 : balanceInv c8WitState := by
    intro p hp
    simp only [c8WitState, List.mem_singleton] at hp
    subst hp
    show c8WitProduct.current_stock = ledgerSum c8WitState.movements
      c8WitProduct.id
    norm_num [c8WitProduct, c8WitState, c8WitMov, ledgerSum, applyMov,
      List.filter, List.foldl]
  have h3 : ∀ m ∈ c8WitState.movements, m.product_id = 1 →
      (batchKeyOf m).isSome = true ∧ m.type ≠ .ADJUST := by
    intro m hm _
    simp only [c8WitState, List.mem_singleton] at hm
    subst hm
    refine ⟨rfl, ?_⟩
    intro he
    exact MovType.noConfusion (show MovType.IN = MovType.ADJUST from he)
  have h4 : ∀ k ∈ batchKeys c8WitState.movements, k.1 = 1 →
      0 < groupQuantity c8WitState.movements k := by
    intro k hk _
    have : k = (1, "B100", some 60) := by
      simp [batchKeys, c8WitState, c8WitMov, batchKeyOf,
        List.filterMap] at hk
      exact hk
    subst this
    norm_num [groupQuantity, c8WitState, c8WitMov, batchKeyOf, batchContrib,
      List.filter]
  exact ⟨h1, h2, h3, h4,
    c8_batch_partition_amended c8WitState 1 c8WitProduct h1 h2 h3 h4⟩

/-- The spec's own scenario: a batch-tagged IN of 20 followed by an
untagged OUT of 5 on the same product. -/
def c8Reqs : List MovReq :=
  [{ productId := 1, type := .IN, quantity := 20, notes := "",
     referenceNo := none, batchNumber := some "B100",
     batchExpiryDate := some 60 },
   { productId := 1, type := .OUT, quantity := 5, notes := "",
     referenceNo := none, batchNumber := none, batchExpiryDate := none }]

/-- The state after running the scenario from an empty consistent state. -/
def c8State : DBState := runMovements demoState c8Reqs

/-- Product row of the expected post-scenario state. -/
def c8Product : Product :=
  { id := 1, name := "Beras", current_stock := 15, unit := "pcs",
    min_stock_threshold := 10, is_active := true }

/-- The tagged IN row of the expected post-scenario state. -/
def c8MovIn : Movement :=
  { id := 1, product_id := 1, type := .IN, quantity := 20, unit := "pcs",
    notes := "", reference_no := none, balance_after := 20,
    batch_number := some "B100", batch_expiry_date := some 60 }

/-- The untagged OUT row of the expected post-scenario state. -/
def c8MovOut : Movement :=
  { id := 2, product_id := 1, type := .OUT, quantity := 5, unit := "pcs",
    notes := "", reference_no := none, balance_after := 15,
    batch_number := none, batch_expiry_date := none }

/-- Counterexample to C8 as stated: after IN 20 tagged B100 and an untagged
OUT 5, batch B100 still derives 20 while `current_stock` is 15, so the sum
of active batch quantities exceeds `current_stock`. -/
theorem c8_batch_partition_counterexample :
    getTotalBatchQuantity c8State 1 = 20 ∧ stockOf c8State 1 = some 15 ∧
    ¬ getTotalBatchQuantity c8State 1 ≤ 15 := by
  have hstate : c8State =
      { products := [c8Product], movements := [c8MovIn, c8MovOut],
        nextMovementId := 3, notifications := [] } := by
    norm_num [c8State, c8Reqs, runMovements, applyMovReq,
      createStockTransaction, insertMovementPhase, getProductById, demoState,
      demoProduct, computeNewStock, updateProductStock, List.find?,
      List.foldl, c8Product, c8MovIn, c8MovOut]
  rw [hstate]
  refine ⟨?_, ?_, ?_⟩
  · simp [getTotalBatchQuantity, productBatchesView, batchKeys,
      batchKeyOf, groupQuantity, batchContrib, mkBatchRow, List.filterMap,
      List.filter_cons, List.filter_nil, List.dedup, c8Product, c8MovIn,
      c8MovOut]
  · norm_num [stockOf, getProductById, List.find?, c8Product]
  · simp [getTotalBatchQuantity, productBatchesView, batchKeys,
      batchKeyOf, groupQuantity, batchContrib, mkBatchRow, List.filterMap,
      List.filter_cons, List.filter_nil, List.dedup, c8Product, c8MovIn,
      c8MovOut]
    norm_num

/-- Sort key of `ORDER BY batch_expiry_date ASC`: rows are compared by the
julianday value of their expiry date (lexicographic order on ISO date
strings coincides with julianday order; the rows reaching the sort in
`getExpiringBatches` all have a non-NULL date, so the `getD` default is
never consulted there). -/
def orderKey (r : BatchRow) : Rat :=
  r.batch_expiry_date.getD 0

/-- The comparison behind `ORDER BY batch_expiry_date ASC`. -/
def expiryLe (a b : BatchRow) : Prop :=
  orderKey a ≤ orderKey b

instance : DecidableRel expiryLe := fun a b =>
  inferInstanceAs (Decidable (orderKey a ≤ orderKey b))

instance : IsTotal BatchRow expiryLe :=
  ⟨fun a b => le_total (orderKey a) (orderKey b)⟩

instance : IsTrans BatchRow expiryLe :=
  ⟨fun _ _ _ hab hbc => le_trans hab hbc⟩

/-- `getExpiringBatches` (batchTracking.js:110-142): from the
`product_batches` view, keep the rows with a non-NULL expiry date whose
raw julianday difference `julianday(expiry) - julianday(now)` lies between
0 and `daysThreshold` (both comparisons on the unfloored difference), and
order by expiry date ascending. -/
def getExpiringBatches (st : DBState) (now : Rat) (daysThreshold : Rat) :
    List BatchRow :=
  List.insertionSort expiryLe
    ((productBatchesView st).filter (fun r =>
      match r.batch_expiry_date with
      | some e => decide (e - now ≤ daysThreshold) && decide (0 ≤ e - now)
      | none => false))

/-- The window as the claim words it: an active batch row belongs to the
result exactly when `days_until_expiry = ⌊expiry - today⌋` satisfies
`0 ≤ days_until_expiry ≤ daysThreshold`. -/
def specExpiringWindow (st : DBState) (now : Rat) (daysThreshold : Rat)
    (r : BatchRow) : Prop :=
  r ∈ productBatchesView st ∧ ∃ e : Rat, r.batch_expiry_date = some e ∧
    0 ≤ ⌊e - now⌋ ∧ ((⌊e - now⌋ : Int) : Rat) ≤ daysThreshold

/-- **C9** (amended).  `getExpiringBatches` returns exactly the active
batch rows whose non-NULL expiry satisfies `0 ≤ expiry - now ≤
daysThreshold` with both bounds applied to the raw (unfloored) day
difference, sorted by expiry date ascending; already-expired batches
(negative difference, hence negative floor) are excluded.  The claim's
version with the upper bound on the floored `days_until_expiry` is false:
a batch whose difference is daysThreshold + 1/2 has
`days_until_expiry = daysThreshold` yet is excluded (see counterexample). -/
theorem c9_expiring_window_amended (st : DBState) (now daysThreshold : Rat) :
    (∀ r : BatchRow, r ∈ getExpiringBatches st now daysThreshold ↔
      (r ∈ productBatchesView st ∧ ∃ e : Rat, r.batch_expiry_date = some e ∧
        0 ≤ e - now ∧ e - now ≤ daysThreshold)) ∧
    List.Sorted expiryLe (getExpiringBatches st now daysThreshold) ∧
    (∀ r ∈ getExpiringBatches st now daysThreshold,
      ∀ e : Rat, r.batch_expiry_date = some e → 0 ≤ ⌊e - now⌋) := by
  have hperm := List.perm_insertionSort expiryLe
    ((productBatchesView st).filter (fun r =>
      match r.batch_expiry_date with
      | some e => decide (e - now ≤ daysThreshold) && decide (0 ≤ e - now)
      | none => false))
  have hmem : ∀ r : BatchRow, r ∈ getExpiringBatches st now daysThreshold ↔
      (r ∈ productBatchesView st ∧ ∃ e : Rat, r.batch_expiry_date = some e ∧
        0 ≤ e - now ∧ e - now ≤ daysThreshold) := by
    intro r
    rw [show getExpiringBatches st now daysThreshold =
      List.insertionSort expiryLe ((productBatchesView st).filter (fun r =>
        match r.batch_expiry_date with
        | some e => decide (e - now ≤ daysThreshold) && decide (0 ≤ e - now)
        | none => false)) from rfl]
    rw [hperm.mem_iff, List.mem_filter]
    constructor
    · rintro ⟨hview, hcond⟩
      refine ⟨hview, ?_⟩
      cases he : r.batch_expiry_date with
      | none =>
        rw [he] at hcond
        exact absurd hcond (by simp)
      | some e =>
        rw [he] at hcond
        have hcond2 : (decide (e - now ≤ daysThreshold) &&
            decide (0 ≤ e - now)) = true := hcond
        rw [Bool.and_eq_true] at hcond2
        exact ⟨e, rfl, of_decide_eq_true hcond2.2,
          of_decide_eq_true hcond2.1⟩
    · rintro ⟨hview, e, he, h0, hT⟩
      refine ⟨hview, ?_⟩
      rw [he]
      show (decide (e - now ≤ daysThreshold) && decide (0 ≤ e - now)) = true
      rw [decide_eq_true hT, decide_eq_true h0]
      rfl
  refine ⟨hmem, List.sorted_insertionSort expiryLe _, ?_⟩
  intro r hr e he
  obtain ⟨-, e2, he2, h0, -⟩ := (hmem r).1 hr
  rw [he] at he2
  have hee : e = e2 := Option.some.inj he2
  rw [hee]
  exact Int.floor_nonneg.2 h0

/-- Product for the C9 counterexample. -/
def c9Product : Product :=
  { id := 1, name := "Beras", current_stock := 10, unit := "pcs",
    min_stock_threshold := 10, is_active := true }

/-- A batch-tagged IN whose expiry lies 30.5 julian days ahead of now=0. -/
def c9Mov : Movement :=
  { id := 1, product_id := 1, type := .IN, quantity := 10, unit := "pcs",
    notes := "", reference_no := none, balance_after := 10,
    batch_number := some "B200", batch_expiry_date := some (61/2) }

/-- State for the C9 counterexample. -/
def c9State : DBState :=
  { products := [c9Product], movements := [c9Mov], nextMovementId := 2,
    notifications := [] }

/-- The view row derived from `c9Mov`. -/
def c9Row : BatchRow :=
  { product_id := 1, batch_number := "B200",
    batch_expiry_date := some (61/2), current_quantity := 10 }

/-- Counterexample to C9 as stated: with now = 0 and daysThreshold = 30, the
batch expiring at julianday 30.5 has days_until_expiry = ⌊30.5⌋ = 30 inside
the claimed window 0..30, yet `getExpiringBatches` filters on the raw
difference 30.5 ≤ 30 and excludes it. -/
theorem c9_expiring_window_counterexample :
    specExpiringWindow c9State 0 30 c9Row ∧
    c9Row ∉ getExpiringBatches c9State 0 30 := by
  have hfloor : ⌊(61 : Rat)/2 - 0⌋ = 30 := by
    rw [Int.floor_eq_iff]
    norm_num
  constructor
  · refine ⟨?_, 61/2, rfl, ?_, ?_⟩
    · simp [productBatchesView, batchKeys, batchKeyOf, groupQuantity,
        batchContrib, mkBatchRow, c9State, c9Mov, c9Row, List.filterMap,
        List.filter_cons, List.filter_nil, List.dedup]
    · rw [hfloor]
      norm_num
    · rw [hfloor]
      norm_num
  · intro hmem
    have : getExpiringBatches c9State 0 30 = [] := by
      simp [getExpiringBatches, productBatchesView, batchKeys, batchKeyOf,
        groupQuantity, batchContrib, mkBatchRow, c9State, c9Mov,
        List.filterMap, List.filter_cons, List.filter_nil, List.dedup]
      norm_num
    rw [this] at hmem
    exact List.not_mem_nil c9Row hmem

/-- Witness instantiating the amended C9 on the counterexample state. -/
theorem c9_expiring_window_amended_witness :
    (∀ r : BatchRow, r ∈ getExpiringBatches c9State 0 30 ↔
      (r ∈ productBatchesView c9State ∧ ∃ e : Rat,
        r.batch_expiry_date = some e ∧ 0 ≤ e - 0 ∧ e - 0 ≤ 30)) ∧
    List.Sorted expiryLe (getExpiringBatches c9State 0 30) ∧
    (∀ r ∈ getExpiringBatches c9State 0 30,
      ∀ e : Rat, r.batch_expiry_date = some e → 0 ≤ ⌊e - 0⌋) :=
  c9_expiring_window_amended c9State 0 30

end SupplyWise
